import Mathlib

/-!
# Verification-code service over a key-value store (package `verification_code_rdb`)

A shallow embedding of `redis_support/verification_code_rdb`:

* `strategy.go`  – the policy record `VerificationCodeServiceStrategy`;
* `redis_io.go`  – the lifecycle operations, the three abuse predicates and the
  composite check `combineCheckIsUserValid`;
* `verification_code_rdb.go` – the exported wrappers.

Conventions of the embedding.

* A Go pair `(x, err error)` is a Lean pair `(x, Option Error)`; `nil` is `none`.
* `int`, `int64` and `time.Duration` values are mathematical integers; the places where
  the source multiplies or subtracts them go through `wrap64`.
* The store behind `*redis.Client` is the record `Redis`: one keyspace of typed values
  with optional absolute expiry, read at a clock value `now` (Unix seconds).  One exported
  call is taken to happen at one clock value.
* The store calls of the source that discard their reply (`SAdd`, `ExpireAt`, `Del`, ...)
  discard it here as well.
-/

namespace verification_code_rdb

/-! ## Machine integers -/

/-- Two's-complement wrap-around of a mathematical integer to 64 signed bits. -/
def wrap64 (x : Int) : Int := (x + 9223372036854775808) % 18446744073709551616 - 9223372036854775808

/-- Largest `int64`. -/
def maxInt64 : Int := 9223372036854775807

/-- Smallest `int64`. -/
def minInt64 : Int := -9223372036854775808

/-- Nanoseconds per second (`time.Second`). -/
def timeSecond : Int := 1000000000

/-! ## Errors and store values -/

/-- Values of Go's `error` that the store client can hand back.  `Nil` is `redis.Nil`. -/
inductive Error where
  | Nil
  | wrongType
  | notInteger
  | overflow
  | connection
  deriving DecidableEq, Repr

/-- A value held under a key.  `int n` stands for the decimal text of `n` (what `INCR` and a
`SET` of an integer leave behind); `set ms` is a set with members `ms`. -/
inductive RVal where
  | str (s : String)
  | int (n : Int)
  | set (members : List String)
  deriving DecidableEq, Repr

/-- A key's value with its absolute expiry time in Unix seconds (`none`: no expiry). -/
structure Entry where
  val : RVal
  expireAt : Option Nat
  deriving DecidableEq, Repr

/-- State of the store: whether it answers at all, and the keyspace. -/
structure Redis where
  online : Bool
  data : String → Option Entry

/-- The store with no keys. -/
def Redis.empty : Redis := ⟨true, fun _ => none⟩

/-- The entry under `key` that is still alive at `now`. -/
def Redis.lookup (db : Redis) (now : Nat) (key : String) : Option Entry :=
  match db.data key with
  | none => none
  | some e =>
    match e.expireAt with
    | none => some e
    | some t => if now < t then some e else none

/-- Replace (or with `none`, remove) the entry under `key`. -/
def Redis.put (db : Redis) (key : String) (e : Option Entry) : Redis :=
  { db with data := fun k => if k = key then e else db.data k }

/-- Decimal digits of a character list, most significant first. -/
def parseDigits : List Char → Nat → Option Nat
  | [], acc => some acc
  | c :: cs, acc =>
    if 48 ≤ c.toNat ∧ c.toNat ≤ 57 then parseDigits cs (acc * 10 + (c.toNat - 48)) else none

/-- Base-10 integer syntax of `strconv`: an optional sign and at least one digit. -/
def parseInt (s : String) : Option Int :=
  match s.data with
  | [] => none
  | '-' :: cs => if cs = [] then none else (parseDigits cs 0).map (fun n => -(n : Int))
  | '+' :: cs => if cs = [] then none else (parseDigits cs 0).map (fun n => (n : Int))
  | cs => (parseDigits cs 0).map (fun n => (n : Int))

/-- The 64-bit integer a stored value denotes, if any. -/
def RVal.asInt64 : RVal → Option Int
  | .int n => if minInt64 ≤ n ∧ n ≤ maxInt64 then some n else none
  | .str s =>
    match parseInt s with
    | some n => if minInt64 ≤ n ∧ n ≤ maxInt64 then some n else none
    | none => none
  | .set _ => none

/-- The text a stored scalar value reads back as. -/
def RVal.text : RVal → String
  | .str s => s
  | .int n => toString n
  | .set _ => ""

/-! ## Store commands -/

/-- Reply of a `GET`: the value and the error. -/
structure StringCmd where
  val : RVal
  err : Option Error
  deriving DecidableEq, Repr

/-- Command `SET key value` with an expiration in nanoseconds: a positive expiration gives the
key that lifetime (in whole seconds), `-1` (`KeepTTL`) keeps the expiry of a live key,
anything else stores the key without expiry. -/
def Redis.Set (db : Redis) (now : Nat) (key : String) (value : RVal) (expiration : Int) :
    Option Error × Redis :=
  if db.online then
    if 0 < expiration then
      (none, db.put key (some ⟨value, some (now + (expiration / timeSecond).toNat)⟩))
    else if expiration = -1 then
      (none, db.put key (some ⟨value, (db.lookup now key).bind Entry.expireAt⟩))
    else
      (none, db.put key (some ⟨value, none⟩))
  else (some Error.connection, db)

/-- Command `GET key`. -/
def Redis.Get (db : Redis) (now : Nat) (key : String) : StringCmd :=
  if db.online then
    match db.lookup now key with
    | none => ⟨.str "", some Error.Nil⟩
    | some e =>
      match e.val with
      | .set _ => ⟨.str "", some Error.wrongType⟩
      | v => ⟨v, none⟩
  else ⟨.str "", some Error.connection⟩

/-- Method `StringCmd.Result()`. -/
def StringCmd.Result (c : StringCmd) : String × Option Error := (c.val.text, c.err)

/-- Methods `StringCmd.Int()` and `StringCmd.Int64()` (Go's `int` has 64 bits). -/
def StringCmd.Int64 (c : StringCmd) : Int × Option Error :=
  match c.err with
  | some e => (0, some e)
  | none =>
    match c.val.asInt64 with
    | some n => (n, none)
    | none => (0, some Error.notInteger)

/-- Command `DEL key`. -/
def Redis.Del (db : Redis) (key : String) : Option Error × Redis :=
  if db.online then (none, db.put key none) else (some Error.connection, db)

/-- Command `SADD key member`. -/
def Redis.SAdd (db : Redis) (now : Nat) (key : String) (member : String) : Option Error × Redis :=
  if db.online then
    match db.lookup now key with
    | none => (none, db.put key (some ⟨.set [member], none⟩))
    | some e =>
      match e.val with
      | .set ms => (none, db.put key (some ⟨.set (ms.insert member), e.expireAt⟩))
      | _ => (some Error.wrongType, db)
  else (some Error.connection, db)

/-- Command `SREM key member`; a set left without members disappears. -/
def Redis.SRem (db : Redis) (now : Nat) (key : String) (member : String) : Option Error × Redis :=
  if db.online then
    match db.lookup now key with
    | none => (none, db)
    | some e =>
      match e.val with
      | .set ms =>
        let rest := ms.filter (fun m => m ≠ member)
        (none, db.put key (if rest = [] then none else some ⟨.set rest, e.expireAt⟩))
      | _ => (some Error.wrongType, db)
  else (some Error.connection, db)

/-- Command `SCARD key` as `(count, err)`. -/
def Redis.SCard (db : Redis) (now : Nat) (key : String) : Int × Option Error :=
  if db.online then
    match db.lookup now key with
    | none => (0, none)
    | some e =>
      match e.val with
      | .set ms => ((ms.length : Int), none)
      | _ => (0, some Error.wrongType)
  else (0, some Error.connection)

/-- Command `EXPIREAT key tm` with `tm` in Unix seconds. -/
def Redis.ExpireAt (db : Redis) (now : Nat) (key : String) (tm : Nat) : Option Error × Redis :=
  if db.online then
    match db.lookup now key with
    | none => (none, db)
    | some e => (none, db.put key (some ⟨e.val, some tm⟩))
  else (some Error.connection, db)

/-- Whether a character is a decimal digit. -/
def isDecimalDigit (c : Char) : Bool := decide (48 ≤ c.toNat) && decide (c.toNat ≤ 57)

/-- Whether a text is the canonical decimal form of an integer, the only form the store's own
integer commands accept: `0`, or an optional `-` and digits that start with a non-zero digit
(no `+`, no leading zeros, no `-0`, no other characters). -/
def canonicalDecimal (s : String) : Bool :=
  match s.data with
  | [] => false
  | ['0'] => true
  | '-' :: c :: cs => decide (49 ≤ c.toNat) && decide (c.toNat ≤ 57) && cs.all isDecimalDigit
  | c :: cs => decide (49 ≤ c.toNat) && decide (c.toNat ≤ 57) && cs.all isDecimalDigit

/-- The 64-bit integer a stored value denotes for the store's own `INCR`: text counts only in
canonical decimal form. -/
def RVal.asIncrInt64 : RVal → Option Int
  | .int n => if minInt64 ≤ n ∧ n ≤ maxInt64 then some n else none
  | .str s => if canonicalDecimal s then (RVal.str s).asInt64 else none
  | .set _ => none

/-- Command `INCR key`: a value that is not canonical decimal text of a 64-bit integer is
refused and left as it is. -/
def Redis.Incr (db : Redis) (now : Nat) (key : String) : Option Error × Redis :=
  if db.online then
    match db.lookup now key with
    | none => (none, db.put key (some ⟨.int 1, none⟩))
    | some e =>
      match e.val with
      | .set _ => (some Error.wrongType, db)
      | v =>
        match v.asIncrInt64 with
        | none => (some Error.notInteger, db)
        | some n =>
          if n < maxInt64 then (none, db.put key (some ⟨.int (n + 1), e.expireAt⟩))
          else (some Error.overflow, db)
  else (some Error.connection, db)

/-- Command `TTL key` as the client's `(time.Duration, err)`: the replies `-2` (no such key)
and `-1` (no expiry) come back as that many nanoseconds, a remaining lifetime as that many
seconds. -/
def Redis.TTL (db : Redis) (now : Nat) (key : String) : Int × Option Error :=
  if db.online then
    match db.lookup now key with
    | none => (-2, none)
    | some e =>
      match e.expireAt with
      | none => (-1, none)
      | some t => (wrap64 (((t : Int) - (now : Int)) * timeSecond), none)
  else (0, some Error.connection)

/-- Conversion `int64(d.Seconds())` of a duration in nanoseconds: truncation toward zero. -/
def durationSeconds (d : Int) : Int := Int.tdiv d timeSecond

/-! ## Local time -/

/-- Modelled from the spec: the local calendar that the source reaches through
`time.Now().Format("20060102")` and through `wow_time.GetTomorrowZeroTime` (package
`utils/wow_time`, not among the sources).  `dayStamp now` is the local date stamp of the
clock value `now`, `tomorrowZero now` the Unix time of the next local midnight. -/
structure LocalClock where
  dayStamp : Nat → String
  tomorrowZero : Nat → Nat

/-- Two decimal digits. -/
def pad2 (n : Nat) : String := String.mk [Nat.digitChar (n / 10 % 10), Nat.digitChar (n % 10)]

/-- Civil date `(year, month, day)` of a day number counted from 1970-01-01. -/
def civilFromDays (z0 : Nat) : Nat × Nat × Nat :=
  let z := z0 + 719468
  let era := z / 146097
  let doe := z % 146097
  let yoe := (doe - doe / 1460 + doe / 36524 - doe / 146096) / 365
  let doy := doe - (365 * yoe + yoe / 4 - yoe / 100)
  let mp := (5 * doy + 2) / 153
  let d := doy - (153 * mp + 2) / 5 + 1
  let m := if mp < 10 then mp + 3 else mp - 9
  (if m ≤ 2 then yoe + era * 400 + 1 else yoe + era * 400, m, d)

/-- The calendar of a machine whose local zone is UTC. -/
def utcClock : LocalClock where
  dayStamp := fun now =>
    let ymd := civilFromDays (now / 86400)
    pad2 (ymd.1 / 100) ++ pad2 ymd.1 ++ pad2 ymd.2.1 ++ pad2 ymd.2.2
  tomorrowZero := fun now => (now / 86400 + 1) * 86400

/-! ## `strategy.go` and the receiver type -/

/-- Type `InvalidType` (an `int`). -/
abbrev InvalidType := Int

/-- Constant `UserIsValid = iota + 1`. -/
def UserIsValid : InvalidType := 1

/-- Constant `InvalidTypeUnusedCodeTooMany`. -/
def InvalidTypeUnusedCodeTooMany : InvalidType := 2

/-- Constant `InvalidTypeRequestTooFrequently`. -/
def InvalidTypeRequestTooFrequently : InvalidType := 3

/-- Constant `InvalidTypeVerifyFailTooFrequently`. -/
def InvalidTypeVerifyFailTooFrequently : InvalidType := 4

/-- Struct `VerificationCodeServiceStrategy`.  The `*sync.Map` is `none` for a nil pointer and
otherwise the entries `(threshold, banDuration)` in the order `Range` visits them. -/
structure VerificationCodeServiceStrategy where
  ValidityDuration : Int
  RequestTimeIntervalThreshold : Int
  DenyThresholdOfUnusedCode : Int
  DenyThresholdOfFailedCount : Int
  TemporarilyBanStrategy : Option (List (Int × Int))

/-- Struct `VerificationCodeRdb`; the store behind `rDb` is passed to every operation. -/
structure VerificationCodeRdb where
  ModuleName : String
  strategy : VerificationCodeServiceStrategy

/-- Method `sync.Map.Range`: calls `f` on the entries in turn until it returns `false`. -/
def syncMapRange {σ : Type} (f : Int → Int → σ → σ × Bool) : List (Int × Int) → σ → σ
  | [], s => s
  | (k, v) :: rest, s =>
    let step := f k v s
    if step.2 then syncMapRange f rest step.1 else step.1

/-! ## `redis_io.go`: key names -/

/-- Key of the active code. -/
def VerificationCodeRdb.getRedisFieldNameVerificationCode (r : VerificationCodeRdb)
    (objName : String) : String :=
  r.ModuleName ++ "VerificationCode" ++ objName

/-- Key of the day's set of codes not yet used. -/
def VerificationCodeRdb.getRedisFieldNameVerificationCodeSet (r : VerificationCodeRdb)
    (clk : LocalClock) (now : Nat) (objName : String) : String :=
  r.ModuleName ++ "VerificationCodeSet" ++ objName ++ clk.dayStamp now

/-- Key of the day's failure counter. -/
def VerificationCodeRdb.getRedisFieldNameVerificationCodeErrorCount (r : VerificationCodeRdb)
    (clk : LocalClock) (now : Nat) (objName : String) : String :=
  r.ModuleName ++ "VerificationCodeErrorCount" ++ objName ++ clk.dayStamp now

/-- Key of the day's time of the last failure. -/
def VerificationCodeRdb.getRedisFieldNameVerificationCodeLastFailedTime (r : VerificationCodeRdb)
    (clk : LocalClock) (now : Nat) (objName : String) : String :=
  r.ModuleName ++ "VerificationCodeLastErrorTime" ++ objName ++ clk.dayStamp now

/-! ## `redis_io.go`: reads -/

/-- Function `getVerificationCode`: `(exist, code, err)`. -/
def VerificationCodeRdb.getVerificationCode (r : VerificationCodeRdb) (db : Redis) (now : Nat)
    (objName : String) : Bool × String × Option Error :=
  let res := (db.Get now (r.getRedisFieldNameVerificationCode objName)).Result
  if res.2 = some Error.Nil then (false, res.1, none)
  else (res.2 == none, res.1, res.2)

/-- Function `queryVerificationCodeTTL`. -/
def VerificationCodeRdb.queryVerificationCodeTTL (r : VerificationCodeRdb) (db : Redis) (now : Nat)
    (objName : String) : Int × Option Error :=
  let res := db.TTL now (r.getRedisFieldNameVerificationCode objName)
  if res.2 = some Error.Nil then (0, none)
  else (durationSeconds res.1, res.2)

/-- Function `queryVerificationCodeRegisteredPeriod`. -/
def VerificationCodeRdb.queryVerificationCodeRegisteredPeriod (r : VerificationCodeRdb)
    (db : Redis) (now : Nat) (objName : String) : Bool × Int × Option Error :=
  let res := r.queryVerificationCodeTTL db now objName
  (res.2 != none && res.1 == 0, wrap64 (r.strategy.ValidityDuration - res.1), res.2)

/-- Unix seconds of Go's zero `time.Time`. -/
def zeroTimeUnix : Int := -62135596800

/-- Function `queryLastErrorTime`: `(exist, lastTime, err)`, the time as Unix seconds. -/
def VerificationCodeRdb.queryLastErrorTime (r : VerificationCodeRdb) (clk : LocalClock)
    (db : Redis) (now : Nat) (objName : String) : Bool × Int × Option Error :=
  let res := (db.Get now (r.getRedisFieldNameVerificationCodeLastFailedTime clk now objName)).Int64
  if res.2 = some Error.Nil then (false, zeroTimeUnix, none)
  else (res.2 == none, res.1, res.2)

/-- Function `queryCountOfUnusedVerificationCode`. -/
def VerificationCodeRdb.queryCountOfUnusedVerificationCode (r : VerificationCodeRdb)
    (clk : LocalClock) (db : Redis) (now : Nat) (objName : String) : Int × Option Error :=
  let f := r.getRedisFieldNameVerificationCodeSet clk now objName
  let res := db.SCard now f
  if res.2 = some Error.Nil then (0, none)
  else (res.1, res.2)

/-- Function `queryErrorsCountToday`. -/
def VerificationCodeRdb.queryErrorsCountToday (r : VerificationCodeRdb) (clk : LocalClock)
    (db : Redis) (now : Nat) (objName : String) : Int × Option Error :=
  let fc := r.getRedisFieldNameVerificationCodeErrorCount clk now objName
  let res := (db.Get now fc).Int64
  if res.2 = some Error.Nil then (0, none)
  else (res.1, res.2)

/-! ## `redis_io.go`: writes -/

/-- Function `setVerificationCode`. -/
def VerificationCodeRdb.setVerificationCode (r : VerificationCodeRdb) (db : Redis) (now : Nat)
    (objName verCode : String) (expireNanoDuration : Int) : Option Error × Redis :=
  db.Set now (r.getRedisFieldNameVerificationCode objName) (.str verCode) expireNanoDuration

/-- Function `addUnusedVerificationCode`. -/
def VerificationCodeRdb.addUnusedVerificationCode (r : VerificationCodeRdb) (clk : LocalClock)
    (db : Redis) (now : Nat) (objName verCode : String) : Redis :=
  let f := r.getRedisFieldNameVerificationCodeSet clk now objName
  let db1 := (db.SAdd now f verCode).2
  (db1.ExpireAt now f (clk.tomorrowZero now)).2

/-- Function `setAndRegisterVerificationCode`. -/
def VerificationCodeRdb.setAndRegisterVerificationCode (r : VerificationCodeRdb)
    (clk : LocalClock) (db : Redis) (now : Nat) (objName verCode : String)
    (expireNanoDuration : Int) : Option Error × Redis :=
  let res := r.setVerificationCode db now objName verCode expireNanoDuration
  if res.1 ≠ none then (res.1, res.2)
  else (none, r.addUnusedVerificationCode clk res.2 now objName verCode)

/-- Function `updateLastErrorTime`. -/
def VerificationCodeRdb.updateLastErrorTime (r : VerificationCodeRdb) (clk : LocalClock)
    (db : Redis) (now : Nat) (objName : String) : Redis :=
  let fl := r.getRedisFieldNameVerificationCodeLastFailedTime clk now objName
  (db.Set now fl (.int (now : Int))
    (wrap64 (wrap64 ((clk.tomorrowZero now : Int) * timeSecond) - wrap64 ((now : Int) * timeSecond)))).2

/-- Function `increaseErrorCount`. -/
def VerificationCodeRdb.increaseErrorCount (r : VerificationCodeRdb) (clk : LocalClock)
    (db : Redis) (now : Nat) (objName : String) : Redis :=
  let fc := r.getRedisFieldNameVerificationCodeErrorCount clk now objName
  let db1 := (db.Incr now fc).2
  (db1.ExpireAt now fc (clk.tomorrowZero now)).2

/-- Function `verifyFail`. -/
def VerificationCodeRdb.verifyFail (r : VerificationCodeRdb) (clk : LocalClock) (db : Redis)
    (now : Nat) (objName : String) : Redis :=
  let db1 := r.increaseErrorCount clk db now objName
  r.updateLastErrorTime clk db1 now objName

/-- Function `verifySuccess`. -/
def VerificationCodeRdb.verifySuccess (r : VerificationCodeRdb) (clk : LocalClock) (db : Redis)
    (now : Nat) (objName verCode : String) : Redis :=
  let db1 := (db.Del (r.getRedisFieldNameVerificationCode objName)).2
  (db1.SRem now (r.getRedisFieldNameVerificationCodeSet clk now objName) verCode).2

/-- Function `verifyAndUseVerificationCode`: `(exist, success, err)` and the store afterwards. -/
def VerificationCodeRdb.verifyAndUseVerificationCode (r : VerificationCodeRdb) (clk : LocalClock)
    (db : Redis) (now : Nat) (objName verCode : String) : (Bool × Bool × Option Error) × Redis :=
  let got := r.getVerificationCode db now objName
  if got.2.2 ≠ none ∨ got.1 = false then ((got.1, false, got.2.2), db)
  else
    let success : Bool := got.2.1 == verCode
    if success then ((got.1, success, none), r.verifySuccess clk db now objName verCode)
    else ((got.1, success, none), r.verifyFail clk db now objName)

/-! ## `redis_io.go`: the three predicates -/

/-- Function `checkIsRequestTooFrequently`. -/
def VerificationCodeRdb.checkIsRequestTooFrequently (r : VerificationCodeRdb) (db : Redis)
    (now : Nat) (objName : String) (threshold : Int) : Bool × Option Error :=
  let res := r.queryVerificationCodeTTL db now objName
  (res.2 == none && decide (res.1 > 0) &&
    decide (wrap64 (r.strategy.ValidityDuration - res.1) ≤ threshold), res.2)

/-- Function `checkIsUnusedCodeTooMany`. -/
def VerificationCodeRdb.checkIsUnusedCodeTooMany (r : VerificationCodeRdb) (clk : LocalClock)
    (db : Redis) (now : Nat) (objName : String) (threshold : Int) : Bool × Option Error :=
  let res := r.queryCountOfUnusedVerificationCode clk db now objName
  if res.2 ≠ none then (false, res.2)
  else if res.1 < threshold then (false, none)
  else if res.1 > threshold ∧ threshold > 0 then (true, none)
  else
    let got := r.getVerificationCode db now objName
    (got.1, got.2.2)

/-- The closure handed to `Range` in `checkIsVerifyFailTooFrequently`: it assigns the captured
`invalid` and asks to go on while `invalid == false`. -/
def banRangeBody (cnt : Int) (now : Nat) (lastErrTime : Int) (t banDuration : Int)
    (_invalid : Bool) : Bool × Bool :=
  let invalid := decide (cnt ≥ t) && decide (wrap64 ((now : Int) - lastErrTime) ≤ banDuration)
  (invalid, invalid == false)

/-- Function `checkIsVerifyFailTooFrequently`. -/
def VerificationCodeRdb.checkIsVerifyFailTooFrequently (r : VerificationCodeRdb)
    (clk : LocalClock) (db : Redis) (now : Nat) (objName : String) (threshold : Int)
    (temporarilyBanStrategy : Option (List (Int × Int))) : Bool × Option Error :=
  let res := r.queryErrorsCountToday clk db now objName
  if res.2 ≠ none ∨ res.1 = 0 then (false, res.2)
  else if threshold > 0 ∧ res.1 ≥ threshold then (true, none)
  else
    match temporarilyBanStrategy with
    | none => (false, none)
    | some entries =>
      let last := r.queryLastErrorTime clk db now objName
      if last.2.2 ≠ none ∨ last.1 = false then (false, last.2.2)
      else (syncMapRange (banRangeBody res.1 now last.2.1) entries false, none)

/-! ## `redis_io.go`: the composite check -/

/-- Struct `fnRes`: what one predicate goroutine sends on `resChan`. -/
structure fnRes where
  invalid : Bool
  err : Option Error
  it : InvalidType
  deriving DecidableEq, Repr

/-- A predicate `func(string) (bool, error)`. -/
abbrev Predicate := String → Bool × Option Error

/-- The order in which the values sent on `resChan` are received: any rearrangement of them. -/
abbrev Scheduler := List fnRes → List fnRes

/-- Closure `fnGo`: run one predicate and build the value it sends. -/
def fnGo (objName : String) (it : InvalidType) (fn : Predicate) : fnRes :=
  let res := fn objName
  ⟨res.1, res.2, it⟩

/-- The values sent on `resChan`, one per entry of `fnList`. -/
def sentResults (objName : String) (fnList : List (InvalidType × Predicate)) : List fnRes :=
  fnList.map (fun p => fnGo objName p.1 p.2)

/-- The receiving loop of `combineCheckIsUserValid`; `err` is the function's named result. -/
def receiveLoop (err : Option Error) : List fnRes → InvalidType × Option Error
  | [] => (UserIsValid, none)
  | res :: rest =>
    if res.err ≠ none ∨ res.invalid = true then (res.it, err)
    else receiveLoop err rest

/-- Function `combineCheckIsUserValid`.  The named result `err` is never assigned, so it is
`nil` where the loop returns it. -/
def combineCheckIsUserValid (objName : String) (fnList : List (InvalidType × Predicate))
    (sched : Scheduler) : InvalidType × Option Error :=
  let err : Option Error := none
  receiveLoop err (sched (sentResults objName fnList))

/-! ## `verification_code_rdb.go`: exported wrappers -/

/-- Method `CheckIsUnusedCodeTooMany`. -/
def VerificationCodeRdb.CheckIsUnusedCodeTooMany (r : VerificationCodeRdb) (clk : LocalClock)
    (db : Redis) (now : Nat) (objName : String) : Bool × Option Error :=
  r.checkIsUnusedCodeTooMany clk db now objName r.strategy.DenyThresholdOfUnusedCode

/-- Method `CheckIsRequestTooFrequently`. -/
def VerificationCodeRdb.CheckIsRequestTooFrequently (r : VerificationCodeRdb) (db : Redis)
    (now : Nat) (objName : String) : Bool × Option Error :=
  r.checkIsRequestTooFrequently db now objName r.strategy.RequestTimeIntervalThreshold

/-- Method `CheckIsVerifyFailTooFrequently`. -/
def VerificationCodeRdb.CheckIsVerifyFailTooFrequently (r : VerificationCodeRdb)
    (clk : LocalClock) (db : Redis) (now : Nat) (objName : String) : Bool × Option Error :=
  r.checkIsVerifyFailTooFrequently clk db now objName r.strategy.DenyThresholdOfFailedCount
    r.strategy.TemporarilyBanStrategy

/-- The map literal of `preCheckBeforeSendVerificationCode`. -/
def VerificationCodeRdb.preSendFnList (r : VerificationCodeRdb) (clk : LocalClock) (db : Redis)
    (now : Nat) : List (InvalidType × Predicate) :=
  [(InvalidTypeRequestTooFrequently, r.CheckIsRequestTooFrequently db now),
   (InvalidTypeVerifyFailTooFrequently, r.CheckIsVerifyFailTooFrequently clk db now),
   (InvalidTypeUnusedCodeTooMany, r.CheckIsUnusedCodeTooMany clk db now)]

/-- The map literal of `preCheckBeforeVerifyAndUseVerificationCode`. -/
def VerificationCodeRdb.preVerifyFnList (r : VerificationCodeRdb) (clk : LocalClock) (db : Redis)
    (now : Nat) : List (InvalidType × Predicate) :=
  [(InvalidTypeVerifyFailTooFrequently, r.CheckIsVerifyFailTooFrequently clk db now),
   (InvalidTypeUnusedCodeTooMany, r.CheckIsUnusedCodeTooMany clk db now)]

/-- Method `PreCheckBeforeSendVerificationCode`. -/
def VerificationCodeRdb.PreCheckBeforeSendVerificationCode (r : VerificationCodeRdb)
    (clk : LocalClock) (db : Redis) (now : Nat) (sched : Scheduler) (objName : String) :
    InvalidType × Option Error :=
  combineCheckIsUserValid objName (r.preSendFnList clk db now) sched

/-- Method `PreCheckBeforeVerifyAndUseVerificationCode`. -/
def VerificationCodeRdb.PreCheckBeforeVerifyAndUseVerificationCode (r : VerificationCodeRdb)
    (clk : LocalClock) (db : Redis) (now : Nat) (sched : Scheduler) (objName : String) :
    InvalidType × Option Error :=
  combineCheckIsUserValid objName (r.preVerifyFnList clk db now) sched

/-- Method `SetAndRegisterVerificationCode`. -/
def VerificationCodeRdb.SetAndRegisterVerificationCode (r : VerificationCodeRdb)
    (clk : LocalClock) (db : Redis) (now : Nat) (objName verCode : String) :
    Option Error × Redis :=
  r.setAndRegisterVerificationCode clk db now objName verCode
    (wrap64 (r.strategy.ValidityDuration * timeSecond))

/-- Method `VerifyAndUseVerificationCode`. -/
def VerificationCodeRdb.VerifyAndUseVerificationCode (r : VerificationCodeRdb) (clk : LocalClock)
    (db : Redis) (now : Nat) (objName verCode : String) : (Bool × Bool × Option Error) × Redis :=
  r.verifyAndUseVerificationCode clk db now objName verCode

/-- Method `QueryErrorsCountToday`. -/
def VerificationCodeRdb.QueryErrorsCountToday (r : VerificationCodeRdb) (clk : LocalClock)
    (db : Redis) (now : Nat) (objName : String) : Int × Option Error :=
  r.queryErrorsCountToday clk db now objName

/-- Method `QueryLastErrorTime`. -/
def VerificationCodeRdb.QueryLastErrorTime (r : VerificationCodeRdb) (clk : LocalClock)
    (db : Redis) (now : Nat) (objName : String) : Bool × Int × Option Error :=
  r.queryLastErrorTime clk db now objName

/-- Method `QueryCountOfUnusedVerificationCode`. -/
def VerificationCodeRdb.QueryCountOfUnusedVerificationCode (r : VerificationCodeRdb)
    (clk : LocalClock) (db : Redis) (now : Nat) (objName : String) : Int × Option Error :=
  r.queryCountOfUnusedVerificationCode clk db now objName

/-- Method `QueryVerificationCodeTTL`. -/
def VerificationCodeRdb.QueryVerificationCodeTTL (r : VerificationCodeRdb) (db : Redis) (now : Nat)
    (objName : String) : Int × Option Error :=
  r.queryVerificationCodeTTL db now objName

/-- Method `QueryVerificationCodeRegisteredPeriod`: `(invalid, period, err)`. -/
def VerificationCodeRdb.QueryVerificationCodeRegisteredPeriod (r : VerificationCodeRdb)
    (db : Redis) (now : Nat) (objName : String) : Bool × Int × Option Error :=
  r.queryVerificationCodeRegisteredPeriod db now objName

/-! ## `strategy.go`: construction and mutation of the policy -/

/-- Method `sync.Map.Store` on the entries of the map: overwrite the value of a present key,
add an absent key. -/
def syncMapStore : List (Int × Int) → Int → Int → List (Int × Int)
  | [], k, v => [(k, v)]
  | e :: rest, k, v => if e.1 = k then (k, v) :: rest else e :: syncMapStore rest k v

/-- Method `sync.Map.Delete` on the entries of the map. -/
def syncMapDelete (m : List (Int × Int)) (k : Int) : List (Int × Int) :=
  m.filter (fun e => e.1 ≠ k)

/-- The text of the error built by `errors.New` in `strategy.go`. -/
def validityDurationError : String := "CreateVerificationCodeServiceStrategy ValidityDuration == 0"

/-- Function `CreateVerificationCodeServiceStrategy`: `(strategy, err)`.  The argument
`tempBanStrategy` is `none` for a nil pointer and otherwise the entries of the Go map in the
order the `range` loop visits them. -/
def CreateVerificationCodeServiceStrategy (duration intervalThreshold unusedThreshold
    failThreshold : Int) (tempBanStrategy : Option (List (Int × Int))) :
    Option VerificationCodeServiceStrategy × Option String :=
  if duration ≤ 0 then (none, some validityDurationError)
  else
    let res : VerificationCodeServiceStrategy :=
      ⟨duration, intervalThreshold, unusedThreshold, failThreshold, some []⟩
    match tempBanStrategy with
    | none => (some res, none)
    | some entries =>
      let stored := entries.foldl (fun m e => syncMapStore m e.1 e.2) []
      (some { res with TemporarilyBanStrategy := some stored }, none)

/-- Method `AddTemporarilyBanStrategy`; `none` is the nil-pointer panic of a policy whose
`TemporarilyBanStrategy` is nil. -/
def VerificationCodeServiceStrategy.AddTemporarilyBanStrategy
    (s : VerificationCodeServiceStrategy) (threshold duration : Int) :
    Option VerificationCodeServiceStrategy :=
  match s.TemporarilyBanStrategy with
  | none => none
  | some m => some { s with TemporarilyBanStrategy := some (syncMapStore m threshold duration) }

/-- Method `DelTemporarilyBanStrategy`; `none` is the nil-pointer panic. -/
def VerificationCodeServiceStrategy.DelTemporarilyBanStrategy
    (s : VerificationCodeServiceStrategy) (threshold : Int) :
    Option VerificationCodeServiceStrategy :=
  match s.TemporarilyBanStrategy with
  | none => none
  | some m => some { s with TemporarilyBanStrategy := some (syncMapDelete m threshold) }

/-- Method `ModifyDenyThresholdOfFailedCount`. -/
def VerificationCodeServiceStrategy.ModifyDenyThresholdOfFailedCount
    (s : VerificationCodeServiceStrategy) (threshold : Int) : VerificationCodeServiceStrategy :=
  { s with DenyThresholdOfFailedCount := threshold }

/-- Method `ModifyDenyThresholdOfUnusedCode`. -/
def VerificationCodeServiceStrategy.ModifyDenyThresholdOfUnusedCode
    (s : VerificationCodeServiceStrategy) (threshold : Int) : VerificationCodeServiceStrategy :=
  { s with DenyThresholdOfUnusedCode := threshold }

/-- Method `ModifyValidityDuration`: the returned error and the policy afterwards. -/
def VerificationCodeServiceStrategy.ModifyValidityDuration
    (s : VerificationCodeServiceStrategy) (duration : Int) :
    Option String × VerificationCodeServiceStrategy :=
  if duration ≤ 0 then (some validityDurationError, s)
  else (none, { s with ValidityDuration := duration })

/-- Method `ModifyRequestTimeIntervalThreshold`. -/
def VerificationCodeServiceStrategy.ModifyRequestTimeIntervalThreshold
    (s : VerificationCodeServiceStrategy) (intervalThreshold : Int) :
    VerificationCodeServiceStrategy :=
  { s with RequestTimeIntervalThreshold := intervalThreshold }

/-- One call of a mutating method of the policy. -/
inductive PolicyCall where
  | ModifyValidityDuration (duration : Int)
  | ModifyRequestTimeIntervalThreshold (intervalThreshold : Int)
  | ModifyDenyThresholdOfFailedCount (threshold : Int)
  | ModifyDenyThresholdOfUnusedCode (threshold : Int)
  | AddTemporarilyBanStrategy (threshold duration : Int)
  | DelTemporarilyBanStrategy (threshold : Int)
  deriving DecidableEq, Repr

/-- The policy after one call (the error of `ModifyValidityDuration` is dropped); `none` is a
panic. -/
def PolicyCall.run : PolicyCall → VerificationCodeServiceStrategy →
    Option VerificationCodeServiceStrategy
  | .ModifyValidityDuration d, s => some (s.ModifyValidityDuration d).2
  | .ModifyRequestTimeIntervalThreshold t, s => some (s.ModifyRequestTimeIntervalThreshold t)
  | .ModifyDenyThresholdOfFailedCount t, s => some (s.ModifyDenyThresholdOfFailedCount t)
  | .ModifyDenyThresholdOfUnusedCode t, s => some (s.ModifyDenyThresholdOfUnusedCode t)
  | .AddTemporarilyBanStrategy t d, s => s.AddTemporarilyBanStrategy t d
  | .DelTemporarilyBanStrategy t, s => s.DelTemporarilyBanStrategy t

/-- The policy after a sequence of calls, first call first. -/
def runPolicyCalls : List PolicyCall → VerificationCodeServiceStrategy →
    Option VerificationCodeServiceStrategy
  | [], s => some s
  | c :: rest, s =>
    match c.run s with
    | none => none
    | some s2 => runPolicyCalls rest s2

/-! ## The four kinds of key -/

/-- The entity kinds that have a key of their own. -/
inductive EntityKind where
  | activeCode
  | unconsumedSet
  | failureCounter
  | lastFailureTime
  deriving DecidableEq, Repr

/-- The key of entity `kind` for subject `objName`, through the four `getRedisFieldName...`
functions. -/
def VerificationCodeRdb.redisFieldName (r : VerificationCodeRdb) (kind : EntityKind)
    (clk : LocalClock) (now : Nat) (objName : String) : String :=
  match kind with
  | .activeCode => r.getRedisFieldNameVerificationCode objName
  | .unconsumedSet => r.getRedisFieldNameVerificationCodeSet clk now objName
  | .failureCounter => r.getRedisFieldNameVerificationCodeErrorCount clk now objName
  | .lastFailureTime => r.getRedisFieldNameVerificationCodeLastFailedTime clk now objName

/-- Whether the key of an entity kind ends in the day stamp. -/
def EntityKind.dayScoped : EntityKind → Bool
  | .activeCode => false
  | .unconsumedSet => true
  | .failureCounter => true
  | .lastFailureTime => true

/-- The text that a key of the kind carries between `VerificationCode` and the subject. -/
def EntityKind.marker : EntityKind → String
  | .activeCode => ""
  | .unconsumedSet => "Set"
  | .failureCounter => "ErrorCount"
  | .lastFailureTime => "LastErrorTime"

/-! ## Reference definitions taken from the specification -/

/-- Specification wording "an active (non-expired) code currently exists": the active-code
key holds a live scalar value. -/
def VerificationCodeRdb.activeCodeExists (r : VerificationCodeRdb) (db : Redis) (now : Nat)
    (objName : String) : Bool :=
  match db.lookup now (r.getRedisFieldNameVerificationCode objName) with
  | none => false
  | some e =>
    match e.val with
    | .set _ => false
    | _ => true

/-- Specification wording of verify-fail-too-frequent: not violated at zero failures; violated
at or above a positive failure ceiling; otherwise violated exactly when some entry
`(thresholdCount, banDuration)` of the ban mapping has `cnt ≥ thresholdCount` and
`now - lastFailureTimestamp ≤ banDuration`. -/
def verifyFailTooFrequentlySpec (cnt failureCeiling : Int) (mapping : List (Int × Int))
    (now lastFailureTimestamp : Int) : Bool :=
  if cnt = 0 then false
  else if failureCeiling > 0 ∧ cnt ≥ failureCeiling then true
  else decide (∃ e ∈ mapping, cnt ≥ e.1 ∧ now - lastFailureTimestamp ≤ e.2)

/-! ## Vocabulary of the proofs -/

/-- Proof vocabulary: for readers at the clock values `times`, the set key `key` of an
answering store holds exactly the members `ms` (no key at all when `ms` is empty). -/
def Redis.HoldsSet (db : Redis) (key : String) (times : List Nat) (ms : List String) : Prop :=
  db.online = true ∧
    ((ms = [] ∧ ∀ t ∈ times, db.lookup t key = none)
      ∨ ∃ exp, db.data key = some ⟨.set ms, some exp⟩ ∧ ∀ t ∈ times, t < exp)

/-- Proof vocabulary: the part of a key that follows the namespace and the text
`VerificationCode`, for a subject `s` and a day stamp `stamp`. -/
def keyRest (kind : EntityKind) (stamp s : String) : String :=
  match kind with
  | .activeCode => s
  | .unconsumedSet => "Set" ++ s ++ stamp
  | .failureCounter => "ErrorCount" ++ s ++ stamp
  | .lastFailureTime => "LastErrorTime" ++ s ++ stamp

/-- Proof vocabulary: at `now` the key is absent or holds a value the store's `INCR` accepts
as text: an integer written by the store itself or canonical decimal text. -/
def Redis.holdsCounterText (db : Redis) (now : Nat) (key : String) : Bool :=
  match db.lookup now key with
  | none => true
  | some e =>
    match e.val with
    | .str s => canonicalDecimal s
    | .int _ => true
    | .set _ => false

/-! ## Fixtures of `verification_code_rdb_test.go` and example runs -/

/-- The test file's `strategy`: `CreateVerificationCodeServiceStrategy(300, 60, 5, 10, ...)`
with the ban mapping 3 ↦ 40, 5 ↦ 120. -/
def testStrategy : VerificationCodeServiceStrategy :=
  ⟨300, 60, 5, 10, some [(3, 40), (5, 120)]⟩

/-- The test file's `rdb`, module name `"SMS"`. -/
def testRdb : VerificationCodeRdb := ⟨"SMS", testStrategy⟩

/-- The test file's `testPhoneNum`. -/
def testPhoneNum : String := "TestPhoneNumber001"

/-- The test file's `testVerCode`. -/
def testVerCode : String := "TestTest"

/-- A clock value inside 2024-01-01 (UTC). -/
def testNow : Nat := 1704103200

/-- A store that does not answer (connection lost). -/
def offlineStore : Redis := ⟨false, fun _ => none⟩

/-- The calls `SetAndRegisterVerificationCode(objName, code)` of a test run one after the
other, each at its own clock value. -/
def VerificationCodeRdb.issueAll (r : VerificationCodeRdb) (clk : LocalClock) (objName : String) :
    Redis → List (Nat × String) → Redis
  | db, [] => db
  | db, (now, verCode) :: rest =>
    r.issueAll clk objName (r.SetAndRegisterVerificationCode clk db now objName verCode).2 rest

/-- The store after the test's first `SetAndRegisterVerificationCode(testPhoneNum, testVerCode)`
on an empty store. -/
def issuedOnce : Redis :=
  (testRdb.SetAndRegisterVerificationCode utcClock Redis.empty testNow testPhoneNum testVerCode).2

/-- The four issuances that open `TestUncheckedVerCode`, one second apart. -/
def testFourIssues : List (Nat × String) :=
  [(testNow, "TestTest"), (testNow + 1, "TestTest1"), (testNow + 2, "TestTest2"),
   (testNow + 3, "TestTest3")]

/-- The store after the four issuances of `TestUncheckedVerCode`. -/
def issuedFour : Redis := testRdb.issueAll utcClock testPhoneNum Redis.empty testFourIssues

/-- The store after the fifth issuance of `TestUncheckedVerCode`. -/
def issuedFive : Redis :=
  (testRdb.SetAndRegisterVerificationCode utcClock issuedFour (testNow + 4) testPhoneNum
    "TestTest4").2

/-- The same code value issued twice, one second apart. -/
def testRepeatedIssues : List (Nat × String) := [(testNow, "TestTest"), (testNow + 1, "TestTest")]

/-- The policy of the specification's example: failure ceiling 5 and the ban mapping
3 ↦ 40 s, 5 ↦ 120 s. -/
def banExampleRdb : VerificationCodeRdb := ⟨"SMS", ⟨300, 60, 5, 5, some [(3, 40), (5, 120)]⟩⟩

/-- The store after one issuance at `testNow` and three failed consume attempts, the last of
them at `testNow + 3`. -/
def threeFailures : Redis :=
  let db0 := (banExampleRdb.SetAndRegisterVerificationCode utcClock Redis.empty testNow
    testPhoneNum testVerCode).2
  let db1 := (banExampleRdb.VerifyAndUseVerificationCode utcClock db0 (testNow + 1) testPhoneNum
    "TestTestfake").2
  let db2 := (banExampleRdb.VerifyAndUseVerificationCode utcClock db1 (testNow + 2) testPhoneNum
    "TestTestfake").2
  (banExampleRdb.VerifyAndUseVerificationCode utcClock db2 (testNow + 3) testPhoneNum
    "TestTestfake").2

/-- The test policy with the request-interval threshold set to 0 ("fill in 0 when this limit
is not needed"). -/
def noIntervalRdb : VerificationCodeRdb := ⟨"SMS", ⟨300, 0, 5, 10, some [(3, 40), (5, 120)]⟩⟩

/-- The store right after `noIntervalRdb` issued `testVerCode` to the test subject. -/
def noIntervalIssued : Redis :=
  (noIntervalRdb.SetAndRegisterVerificationCode utcClock Redis.empty testNow testPhoneNum
    testVerCode).2

/-- The test policy with the unused-code ceiling set to 0 ("fill in 0 when this limit is not
needed"). -/
def noCeilingRdb : VerificationCodeRdb := ⟨"SMS", ⟨300, 60, 0, 10, some [(3, 40), (5, 120)]⟩⟩

/-- The store right after `noCeilingRdb` issued `testVerCode` to the test subject. -/
def noCeilingIssued : Redis :=
  (noCeilingRdb.SetAndRegisterVerificationCode utcClock Redis.empty testNow testPhoneNum
    testVerCode).2

/-- A run of policy calls on the test policy: a rejected and an accepted change of the
validity duration between changes of the ban mapping. -/
def testPolicyCalls : List PolicyCall :=
  [PolicyCall.ModifyValidityDuration 0, PolicyCall.AddTemporarilyBanStrategy 7 600,
   PolicyCall.ModifyValidityDuration 120, PolicyCall.DelTemporarilyBanStrategy 3,
   PolicyCall.ModifyValidityDuration (-5)]

/-- A business module named `"A"`. -/
def moduleA : VerificationCodeRdb := ⟨"A", testStrategy⟩

/-- A business module named `"AVerificationCode"`. -/
def moduleAVerificationCode : VerificationCodeRdb := ⟨"AVerificationCode", testStrategy⟩

/-- A business module named `"Email"`. -/
def moduleEmail : VerificationCodeRdb := ⟨"Email", testStrategy⟩

/-- A store in which the key `"counter"` holds the text `+7`, which Go's `strconv` reads as 7
and the store's `INCR` refuses. -/
def plusSevenStore : Redis := (Redis.empty.Set testNow "counter" (.str "+7") 0).2

/-! # Theorems -/

/-! ## The receiving loop -/

theorem receiveLoop_all_clean (err : Option Error) (l : List fnRes)
    (h : ∀ res ∈ l, res.err = none ∧ res.invalid = false) :
    receiveLoop err l = (UserIsValid, none) := by
  induction l with
  | nil => rfl
  | cons res rest ih =>
    have hres := h res (List.mem_cons_self _ _)
    have hrest : ∀ x ∈ rest, x.err = none ∧ x.invalid = false :=
      fun x hx => h x (List.mem_cons_of_mem _ hx)
    simp [receiveLoop, hres.1, hres.2, ih hrest]

theorem receiveLoop_first_flagged (err : Option Error) (v : InvalidType) (l : List fnRes)
    (hex : ∃ res ∈ l, res.err ≠ none ∨ res.invalid = true)
    (hall : ∀ res ∈ l, (res.err ≠ none ∨ res.invalid = true) → res.it = v) :
    receiveLoop err l = (v, err) := by
  induction l with
  | nil =>
    obtain ⟨res, hmem, _⟩ := hex
    cases hmem
  | cons res rest ih =>
    by_cases hflag : res.err ≠ none ∨ res.invalid = true
    · have hit := hall res (List.mem_cons_self _ _) hflag
      simp only [receiveLoop, if_pos hflag, hit]
    · have hex2 : ∃ x ∈ rest, x.err ≠ none ∨ x.invalid = true := by
        obtain ⟨x, hx, hxf⟩ := hex
        rcases List.mem_cons.mp hx with rfl | hx
        · exact absurd hxf hflag
        · exact ⟨x, hx, hxf⟩
      have hall2 : ∀ x ∈ rest, (x.err ≠ none ∨ x.invalid = true) → x.it = v :=
        fun x hx => hall x (List.mem_cons_of_mem _ hx)
      simp only [receiveLoop, if_neg hflag]
      exact ih hex2 hall2

/-! ## C1: a store error reaching the composite check -/

/-- C1 (the code at the failing input): with the store unreachable every predicate of the
pre-verify check sends `(false, connection error)`; the value received first is not clean
and carries that non-nil error, yet `PreCheckBeforeVerifyAndUseVerificationCode` returns the
predicate's `InvalidType` together with a nil error. -/
theorem combineCheckIsUserValid_drops_store_error :
    (sentResults testPhoneNum (testRdb.preVerifyFnList utcClock offlineStore testNow)).head?
        = some ⟨false, some Error.connection, InvalidTypeVerifyFailTooFrequently⟩
      ∧ testRdb.PreCheckBeforeVerifyAndUseVerificationCode utcClock offlineStore testNow id
          testPhoneNum = (InvalidTypeVerifyFailTooFrequently, none) := by
  decide

/-! ## C2: exactly one of three predicates violates -/

/-- C2: in a composite check over the three predicates (frequency, fail-rate, unused-count)
where the predicate named `v` reports violated and the other two report `(false, nil)`, the
check returns `v` with a nil error, whatever the order in which the three results arrive. -/
theorem combineCheckIsUserValid_single_violation (objName : String)
    (fReq fFail fUnused : Predicate) (sched : Scheduler) (v : InvalidType)
    (hsched : (sched (sentResults objName
        [(InvalidTypeRequestTooFrequently, fReq), (InvalidTypeVerifyFailTooFrequently, fFail),
         (InvalidTypeUnusedCodeTooMany, fUnused)])).Perm
      (sentResults objName
        [(InvalidTypeRequestTooFrequently, fReq), (InvalidTypeVerifyFailTooFrequently, fFail),
         (InvalidTypeUnusedCodeTooMany, fUnused)]))
    (hone :
      (v = InvalidTypeRequestTooFrequently ∧ (fReq objName).1 = true
          ∧ fFail objName = (false, none) ∧ fUnused objName = (false, none))
      ∨ (v = InvalidTypeVerifyFailTooFrequently ∧ (fFail objName).1 = true
          ∧ fReq objName = (false, none) ∧ fUnused objName = (false, none))
      ∨ (v = InvalidTypeUnusedCodeTooMany ∧ (fUnused objName).1 = true
          ∧ fReq objName = (false, none) ∧ fFail objName = (false, none))) :
    combineCheckIsUserValid objName
        [(InvalidTypeRequestTooFrequently, fReq), (InvalidTypeVerifyFailTooFrequently, fFail),
         (InvalidTypeUnusedCodeTooMany, fUnused)] sched = (v, none)
      ∧ v ≠ UserIsValid := by
  refine ⟨?_, ?_⟩
  · unfold combineCheckIsUserValid
    apply receiveLoop_first_flagged
    · rcases hone with ⟨_, h1, _, _⟩ | ⟨_, h1, _, _⟩ | ⟨_, h1, _, _⟩
      · exact ⟨fnGo objName InvalidTypeRequestTooFrequently fReq,
          hsched.mem_iff.mpr (by simp [sentResults]), Or.inr h1⟩
      · exact ⟨fnGo objName InvalidTypeVerifyFailTooFrequently fFail,
          hsched.mem_iff.mpr (by simp [sentResults]), Or.inr h1⟩
      · exact ⟨fnGo objName InvalidTypeUnusedCodeTooMany fUnused,
          hsched.mem_iff.mpr (by simp [sentResults]), Or.inr h1⟩
    · intro res hres hflag
      have hmem := hsched.mem_iff.mp hres
      simp only [sentResults, List.map_cons, List.map_nil, List.mem_cons, List.mem_singleton,
        List.not_mem_nil, or_false] at hmem
      rcases hone with ⟨hv, _, h2, h3⟩ | ⟨hv, _, h2, h3⟩ | ⟨hv, _, h2, h3⟩ <;>
        rcases hmem with rfl | rfl | rfl <;>
        simp_all [fnGo]
  · rcases hone with ⟨hv, _⟩ | ⟨hv, _⟩ | ⟨hv, _⟩ <;> rw [hv] <;> decide

/-- C2 witness: right after the test's first issuance only the frequency predicate violates,
and with the results arriving in reverse order the pre-send check still answers
`InvalidTypeRequestTooFrequently`. -/
theorem combineCheckIsUserValid_single_violation_witness :
    testRdb.PreCheckBeforeSendVerificationCode utcClock issuedOnce testNow List.reverse
        testPhoneNum = (InvalidTypeRequestTooFrequently, none)
      ∧ InvalidTypeRequestTooFrequently ≠ UserIsValid :=
  combineCheckIsUserValid_single_violation testPhoneNum
    (testRdb.CheckIsRequestTooFrequently issuedOnce testNow)
    (testRdb.CheckIsVerifyFailTooFrequently utcClock issuedOnce testNow)
    (testRdb.CheckIsUnusedCodeTooMany utcClock issuedOnce testNow)
    List.reverse InvalidTypeRequestTooFrequently (List.reverse_perm _)
    (Or.inl ⟨rfl, by decide, by decide, by decide⟩)

/-! ## Reads of absent keys -/

theorem Get_of_lookup_none (db : Redis) (now : Nat) (key : String) (hon : db.online = true)
    (h : db.lookup now key = none) : db.Get now key = ⟨.str "", some Error.Nil⟩ := by
  simp [Redis.Get, hon, h]

theorem getVerificationCode_absent (r : VerificationCodeRdb) (db : Redis) (now : Nat)
    (objName : String) (hon : db.online = true)
    (h : db.lookup now (r.getRedisFieldNameVerificationCode objName) = none) :
    r.getVerificationCode db now objName = (false, "", none) := by
  simp [VerificationCodeRdb.getVerificationCode, Get_of_lookup_none db now _ hon h,
    StringCmd.Result, RVal.text]

theorem CheckIsRequestTooFrequently_absent (r : VerificationCodeRdb) (db : Redis) (now : Nat)
    (objName : String) (hon : db.online = true)
    (h : db.lookup now (r.getRedisFieldNameVerificationCode objName) = none) :
    r.CheckIsRequestTooFrequently db now objName = (false, none) := by
  simp [VerificationCodeRdb.CheckIsRequestTooFrequently,
    VerificationCodeRdb.checkIsRequestTooFrequently,
    VerificationCodeRdb.queryVerificationCodeTTL, Redis.TTL, hon, h,
    (by decide : durationSeconds (-2) = 0)]

theorem CheckIsVerifyFailTooFrequently_absent (r : VerificationCodeRdb) (clk : LocalClock)
    (db : Redis) (now : Nat) (objName : String) (hon : db.online = true)
    (h : db.lookup now (r.getRedisFieldNameVerificationCodeErrorCount clk now objName) = none) :
    r.CheckIsVerifyFailTooFrequently clk db now objName = (false, none) := by
  simp [VerificationCodeRdb.CheckIsVerifyFailTooFrequently,
    VerificationCodeRdb.checkIsVerifyFailTooFrequently,
    VerificationCodeRdb.queryErrorsCountToday, Get_of_lookup_none db now _ hon h,
    StringCmd.Int64]

theorem CheckIsUnusedCodeTooMany_absent (r : VerificationCodeRdb) (clk : LocalClock)
    (db : Redis) (now : Nat) (objName : String) (hon : db.online = true)
    (hset : db.lookup now (r.getRedisFieldNameVerificationCodeSet clk now objName) = none)
    (hcode : db.lookup now (r.getRedisFieldNameVerificationCode objName) = none) :
    r.CheckIsUnusedCodeTooMany clk db now objName = (false, none) := by
  simp only [VerificationCodeRdb.CheckIsUnusedCodeTooMany,
    VerificationCodeRdb.checkIsUnusedCodeTooMany,
    VerificationCodeRdb.queryCountOfUnusedVerificationCode, Redis.SCard, hon, hset,
    getVerificationCode_absent r db now objName hon hcode]
  split_ifs <;> simp_all

/-! ## Frame lemmas of the store commands -/

theorem lookup_congr (db db2 : Redis) (now : Nat) (k : String) (h : db2.data k = db.data k) :
    db2.lookup now k = db.lookup now k := by
  simp [Redis.lookup, h]

theorem put_online (db : Redis) (key : String) (e : Option Entry) :
    (db.put key e).online = db.online := rfl

theorem put_data_same (db : Redis) (key : String) (e : Option Entry) :
    (db.put key e).data key = e := by
  simp [Redis.put]

theorem put_data_other (db : Redis) (key k : String) (e : Option Entry) (hk : k ≠ key) :
    (db.put key e).data k = db.data k := by
  simp [Redis.put, hk]

theorem Set_online (db : Redis) (now : Nat) (key : String) (v : RVal) (d : Int) :
    (db.Set now key v d).2.online = db.online := by
  unfold Redis.Set
  split_ifs <;> rfl

theorem Set_data_other (db : Redis) (now : Nat) (key k : String) (v : RVal) (d : Int)
    (hk : k ≠ key) : (db.Set now key v d).2.data k = db.data k := by
  unfold Redis.Set
  split_ifs <;> simp [Redis.put, hk]

theorem Del_online (db : Redis) (key : String) : (db.Del key).2.online = db.online := by
  unfold Redis.Del
  split_ifs <;> rfl

theorem Del_data_other (db : Redis) (key k : String) (hk : k ≠ key) :
    (db.Del key).2.data k = db.data k := by
  unfold Redis.Del
  split_ifs <;> simp [Redis.put, hk]

theorem SAdd_online (db : Redis) (now : Nat) (key m : String) :
    (db.SAdd now key m).2.online = db.online := by
  unfold Redis.SAdd
  split_ifs
  · split
    · rfl
    · split <;> rfl
  · rfl

theorem SAdd_data_other (db : Redis) (now : Nat) (key m k : String) (hk : k ≠ key) :
    (db.SAdd now key m).2.data k = db.data k := by
  unfold Redis.SAdd
  split_ifs
  · split
    · simp [Redis.put, hk]
    · split <;> simp [Redis.put, hk]
  · rfl

theorem SRem_online (db : Redis) (now : Nat) (key m : String) :
    (db.SRem now key m).2.online = db.online := by
  unfold Redis.SRem
  split_ifs
  · split
    · rfl
    · split <;> rfl
  · rfl

theorem SRem_data_other (db : Redis) (now : Nat) (key m k : String) (hk : k ≠ key) :
    (db.SRem now key m).2.data k = db.data k := by
  unfold Redis.SRem
  split_ifs
  · split
    · rfl
    · split <;> simp [Redis.put, hk]
  · rfl

theorem ExpireAt_online (db : Redis) (now : Nat) (key : String) (tm : Nat) :
    (db.ExpireAt now key tm).2.online = db.online := by
  unfold Redis.ExpireAt
  split_ifs
  · split <;> rfl
  · rfl

theorem ExpireAt_data_other (db : Redis) (now : Nat) (key k : String) (tm : Nat) (hk : k ≠ key) :
    (db.ExpireAt now key tm).2.data k = db.data k := by
  unfold Redis.ExpireAt
  split_ifs
  · split <;> simp [Redis.put, hk]
  · rfl

theorem Incr_online (db : Redis) (now : Nat) (key : String) :
    (db.Incr now key).2.online = db.online := by
  unfold Redis.Incr
  split_ifs
  · split
    · rfl
    · split
      · rfl
      · split
        · rfl
        · split_ifs <;> rfl
  · rfl

theorem Incr_data_other (db : Redis) (now : Nat) (key k : String) (hk : k ≠ key) :
    (db.Incr now key).2.data k = db.data k := by
  unfold Redis.Incr
  split_ifs
  · split
    · simp [Redis.put, hk]
    · split
      · rfl
      · split
        · rfl
        · split_ifs <;> simp [Redis.put, hk]
  · rfl

/-! ## The keys of one subject are different strings -/

theorem codeKey_length (r : VerificationCodeRdb) (objName : String) :
    (r.getRedisFieldNameVerificationCode objName).length
      = r.ModuleName.length + 16 + objName.length := by
  simp [VerificationCodeRdb.getRedisFieldNameVerificationCode, String.length_append,
    (by decide : "VerificationCode".length = 16)]

theorem setKey_length (r : VerificationCodeRdb) (clk : LocalClock) (now : Nat) (objName : String) :
    (r.getRedisFieldNameVerificationCodeSet clk now objName).length
      = r.ModuleName.length + 19 + objName.length + (clk.dayStamp now).length := by
  simp [VerificationCodeRdb.getRedisFieldNameVerificationCodeSet, String.length_append,
    (by decide : "VerificationCodeSet".length = 19)]

theorem errorCountKey_length (r : VerificationCodeRdb) (clk : LocalClock) (now : Nat)
    (objName : String) :
    (r.getRedisFieldNameVerificationCodeErrorCount clk now objName).length
      = r.ModuleName.length + 26 + objName.length + (clk.dayStamp now).length := by
  simp [VerificationCodeRdb.getRedisFieldNameVerificationCodeErrorCount, String.length_append,
    (by decide : "VerificationCodeErrorCount".length = 26)]

theorem lastFailedKey_length (r : VerificationCodeRdb) (clk : LocalClock) (now : Nat)
    (objName : String) :
    (r.getRedisFieldNameVerificationCodeLastFailedTime clk now objName).length
      = r.ModuleName.length + 29 + objName.length + (clk.dayStamp now).length := by
  simp [VerificationCodeRdb.getRedisFieldNameVerificationCodeLastFailedTime,
    String.length_append, (by decide : "VerificationCodeLastErrorTime".length = 29)]

theorem codeKey_ne_setKey (r : VerificationCodeRdb) (clk : LocalClock) (now : Nat)
    (objName : String) :
    r.getRedisFieldNameVerificationCode objName
      ≠ r.getRedisFieldNameVerificationCodeSet clk now objName := by
  intro h
  have hl := congrArg String.length h
  rw [codeKey_length, setKey_length] at hl
  omega

theorem codeKey_ne_errorCountKey (r : VerificationCodeRdb) (clk : LocalClock) (now : Nat)
    (objName : String) :
    r.getRedisFieldNameVerificationCode objName
      ≠ r.getRedisFieldNameVerificationCodeErrorCount clk now objName := by
  intro h
  have hl := congrArg String.length h
  rw [codeKey_length, errorCountKey_length] at hl
  omega

theorem codeKey_ne_lastFailedKey (r : VerificationCodeRdb) (clk : LocalClock) (now : Nat)
    (objName : String) :
    r.getRedisFieldNameVerificationCode objName
      ≠ r.getRedisFieldNameVerificationCodeLastFailedTime clk now objName := by
  intro h
  have hl := congrArg String.length h
  rw [codeKey_length, lastFailedKey_length] at hl
  omega

theorem errorCountKey_ne_lastFailedKey (r : VerificationCodeRdb) (clk : LocalClock) (now : Nat)
    (objName : String) :
    r.getRedisFieldNameVerificationCodeErrorCount clk now objName
      ≠ r.getRedisFieldNameVerificationCodeLastFailedTime clk now objName := by
  intro h
  have hl := congrArg String.length h
  rw [errorCountKey_length, lastFailedKey_length] at hl
  omega

/-! ## Frame lemmas of the write paths -/

theorem addUnused_online (r : VerificationCodeRdb) (clk : LocalClock) (db : Redis) (now : Nat)
    (objName verCode : String) :
    (r.addUnusedVerificationCode clk db now objName verCode).online = db.online := by
  simp [VerificationCodeRdb.addUnusedVerificationCode, ExpireAt_online, SAdd_online]

theorem addUnused_data_other (r : VerificationCodeRdb) (clk : LocalClock) (db : Redis) (now : Nat)
    (objName verCode k : String) (hk : k ≠ r.getRedisFieldNameVerificationCodeSet clk now objName) :
    (r.addUnusedVerificationCode clk db now objName verCode).data k = db.data k := by
  simp [VerificationCodeRdb.addUnusedVerificationCode, ExpireAt_data_other _ _ _ _ _ hk,
    SAdd_data_other _ _ _ _ _ hk]

theorem verifySuccess_online (r : VerificationCodeRdb) (clk : LocalClock) (db : Redis) (now : Nat)
    (objName verCode : String) :
    (r.verifySuccess clk db now objName verCode).online = db.online := by
  simp [VerificationCodeRdb.verifySuccess, SRem_online, Del_online]

theorem verifySuccess_code_gone (r : VerificationCodeRdb) (clk : LocalClock) (db : Redis)
    (now : Nat) (objName verCode : String) (hon : db.online = true) :
    (r.verifySuccess clk db now objName verCode).data
      (r.getRedisFieldNameVerificationCode objName) = none := by
  simp [VerificationCodeRdb.verifySuccess,
    SRem_data_other _ _ _ _ _ (codeKey_ne_setKey r clk now objName), Redis.Del, hon,
    put_data_same]

theorem lookup_of_data_none (db : Redis) (now : Nat) (k : String) (h : db.data k = none) :
    db.lookup now k = none := by
  simp [Redis.lookup, h]

/-- After a successful issuance the active-code key holds the issued text. -/
theorem issue_code_entry (r : VerificationCodeRdb) (clk : LocalClock) (db : Redis) (now : Nat)
    (objName verCode : String)
    (hok : (r.SetAndRegisterVerificationCode clk db now objName verCode).1 = none) :
    (r.SetAndRegisterVerificationCode clk db now objName verCode).2.online = true
      ∧ ∃ exp, (r.SetAndRegisterVerificationCode clk db now objName verCode).2.data
          (r.getRedisFieldNameVerificationCode objName) = some ⟨.str verCode, exp⟩ := by
  have hon : db.online = true := by
    by_contra hoff
    simp [VerificationCodeRdb.SetAndRegisterVerificationCode,
      VerificationCodeRdb.setAndRegisterVerificationCode,
      VerificationCodeRdb.setVerificationCode, Redis.Set, hoff] at hok
  have hset : (r.setVerificationCode db now objName verCode
      (wrap64 (r.strategy.ValidityDuration * timeSecond))).1 = none := by
    simp only [VerificationCodeRdb.setVerificationCode, Redis.Set, hon, if_true]
    split_ifs <;> rfl
  simp only [VerificationCodeRdb.SetAndRegisterVerificationCode,
    VerificationCodeRdb.setAndRegisterVerificationCode, hset, ne_eq, not_true_eq_false,
    if_false]
  refine ⟨?_, ?_⟩
  · rw [addUnused_online]
    simp [VerificationCodeRdb.setVerificationCode, Set_online, hon]
  · rw [addUnused_data_other _ _ _ _ _ _ _ (codeKey_ne_setKey r clk now objName)]
    simp only [VerificationCodeRdb.setVerificationCode, Redis.Set, hon, if_true]
    split_ifs <;> simp [put_data_same]

/-! ## C3: issue, then consume -/

theorem lookup_eq_data_of_ne_none (db : Redis) (now : Nat) (k : String)
    (h : db.lookup now k ≠ none) : db.lookup now k = db.data k := by
  unfold Redis.lookup at h ⊢
  cases hd : db.data k with
  | none => rfl
  | some e =>
    rw [hd] at h
    cases ht : e.expireAt with
    | none => simp [ht]
    | some t =>
      simp only [ht] at h ⊢
      split_ifs with hlt
      · rfl
      · simp [hlt] at h

theorem getVerificationCode_of_str (r : VerificationCodeRdb) (db : Redis) (now : Nat)
    (objName code : String) (exp : Option Nat) (hon : db.online = true)
    (h : db.lookup now (r.getRedisFieldNameVerificationCode objName) = some ⟨.str code, exp⟩) :
    r.getVerificationCode db now objName = (true, code, none) := by
  simp [VerificationCodeRdb.getVerificationCode, Redis.Get, hon, h, StringCmd.Result, RVal.text]

/-- C3: after `SetAndRegisterVerificationCode(subject, code)` has succeeded, and at a clock
value `t1` at which the code record has not expired, `VerifyAndUseVerificationCode(subject, code)`
returns `(exist = true, success = true, err = nil)`; every later
`VerifyAndUseVerificationCode(subject, x)`, at any clock value and for any `x`, returns
`exist = false` and `success = false` (with a nil error). -/
theorem issue_then_consume_once (r : VerificationCodeRdb) (clk : LocalClock) (db : Redis)
    (t0 t1 : Nat) (objName code : String)
    (hissue : (r.SetAndRegisterVerificationCode clk db t0 objName code).1 = none)
    (hlive : (r.SetAndRegisterVerificationCode clk db t0 objName code).2.lookup t1
        (r.getRedisFieldNameVerificationCode objName) ≠ none) :
    (r.VerifyAndUseVerificationCode clk
        (r.SetAndRegisterVerificationCode clk db t0 objName code).2 t1 objName code).1
      = (true, true, none)
    ∧ ∀ (t2 : Nat) (x : String),
        (r.VerifyAndUseVerificationCode clk
          (r.VerifyAndUseVerificationCode clk
            (r.SetAndRegisterVerificationCode clk db t0 objName code).2 t1 objName code).2
          t2 objName x).1 = (false, false, none) := by
  obtain ⟨hon, exp, hdata⟩ := issue_code_entry r clk db t0 objName code hissue
  generalize (r.SetAndRegisterVerificationCode clk db t0 objName code).2 = db1 at hlive hon hdata ⊢
  have hlook := lookup_eq_data_of_ne_none db1 t1 _ hlive
  rw [hdata] at hlook
  have hget := getVerificationCode_of_str r db1 t1 objName code exp hon hlook
  have hstep : r.VerifyAndUseVerificationCode clk db1 t1 objName code
      = ((true, true, none), r.verifySuccess clk db1 t1 objName code) := by
    simp [VerificationCodeRdb.VerifyAndUseVerificationCode,
      VerificationCodeRdb.verifyAndUseVerificationCode, hget]
  rw [hstep]
  refine ⟨rfl, ?_⟩
  intro t2 x
  have hon2 : (r.verifySuccess clk db1 t1 objName code).online = true := by
    rw [verifySuccess_online, hon]
  have hgone := lookup_of_data_none _ t2 _ (verifySuccess_code_gone r clk db1 t1 objName code hon)
  have hget2 := getVerificationCode_absent r _ t2 objName hon2 hgone
  simp [VerificationCodeRdb.VerifyAndUseVerificationCode,
    VerificationCodeRdb.verifyAndUseVerificationCode, hget2]

/-- C3 witness: the test's issuance of `testVerCode`, consumed five seconds later, and a
second attempt after that. -/
theorem issue_then_consume_once_witness :
    (testRdb.VerifyAndUseVerificationCode utcClock issuedOnce (testNow + 5) testPhoneNum
        testVerCode).1 = (true, true, none)
    ∧ ∀ (t2 : Nat) (x : String),
        (testRdb.VerifyAndUseVerificationCode utcClock
          (testRdb.VerifyAndUseVerificationCode utcClock issuedOnce (testNow + 5) testPhoneNum
            testVerCode).2 t2 testPhoneNum x).1 = (false, false, none) :=
  issue_then_consume_once testRdb utcClock Redis.empty testNow (testNow + 5) testPhoneNum
    testVerCode (by decide) (by decide)

/-! ## C5: a subject without state passes both pre-checks -/

/-- C5: for a store that answers and in which the subject has no active code, no set of unused codes
and no failure counter, and for every policy, `PreCheckBeforeSendVerificationCode` and
`PreCheckBeforeVerifyAndUseVerificationCode` both return `(UserIsValid, nil)`, whatever the
order in which the predicate results arrive. -/
theorem preChecks_valid_without_state (r : VerificationCodeRdb) (clk : LocalClock) (db : Redis)
    (now : Nat) (objName : String) (schedSend schedVerify : Scheduler)
    (hon : db.online = true)
    (hcode : db.lookup now (r.getRedisFieldNameVerificationCode objName) = none)
    (hset : db.lookup now (r.getRedisFieldNameVerificationCodeSet clk now objName) = none)
    (hcnt : db.lookup now (r.getRedisFieldNameVerificationCodeErrorCount clk now objName) = none)
    (hsend : (schedSend (sentResults objName (r.preSendFnList clk db now))).Perm
      (sentResults objName (r.preSendFnList clk db now)))
    (hverify : (schedVerify (sentResults objName (r.preVerifyFnList clk db now))).Perm
      (sentResults objName (r.preVerifyFnList clk db now))) :
    r.PreCheckBeforeSendVerificationCode clk db now schedSend objName = (UserIsValid, none)
      ∧ r.PreCheckBeforeVerifyAndUseVerificationCode clk db now schedVerify objName
          = (UserIsValid, none) := by
  have h1 := CheckIsRequestTooFrequently_absent r db now objName hon hcode
  have h2 := CheckIsVerifyFailTooFrequently_absent r clk db now objName hon hcnt
  have h3 := CheckIsUnusedCodeTooMany_absent r clk db now objName hon hset hcode
  constructor
  · unfold VerificationCodeRdb.PreCheckBeforeSendVerificationCode combineCheckIsUserValid
    apply receiveLoop_all_clean
    intro res hres
    have hmem := hsend.mem_iff.mp hres
    simp only [sentResults, VerificationCodeRdb.preSendFnList, List.map_cons, List.map_nil,
      List.mem_cons, List.mem_singleton, List.not_mem_nil, or_false, fnGo, h1, h2, h3] at hmem
    rcases hmem with rfl | rfl | rfl <;> exact ⟨rfl, rfl⟩
  · unfold VerificationCodeRdb.PreCheckBeforeVerifyAndUseVerificationCode combineCheckIsUserValid
    apply receiveLoop_all_clean
    intro res hres
    have hmem := hverify.mem_iff.mp hres
    simp only [sentResults, VerificationCodeRdb.preVerifyFnList, List.map_cons, List.map_nil,
      List.mem_cons, List.mem_singleton, List.not_mem_nil, or_false, fnGo, h2, h3] at hmem
    rcases hmem with rfl | rfl <;> exact ⟨rfl, rfl⟩

/-- C5 witness: the test subject on an empty store, with the results received in reverse
order by the pre-send check and in sending order by the pre-verify check. -/
theorem preChecks_valid_without_state_witness :
    testRdb.PreCheckBeforeSendVerificationCode utcClock Redis.empty testNow List.reverse
        testPhoneNum = (UserIsValid, none)
      ∧ testRdb.PreCheckBeforeVerifyAndUseVerificationCode utcClock Redis.empty testNow id
          testPhoneNum = (UserIsValid, none) :=
  preChecks_valid_without_state testRdb utcClock Redis.empty testNow testPhoneNum List.reverse id
    rfl rfl rfl rfl (List.reverse_perm _) (List.Perm.refl _)

/-! ## Facts about 64-bit values -/

theorem wrap64_of_range (x : Int) (hlo : minInt64 ≤ x) (hhi : x ≤ maxInt64) : wrap64 x = x := by
  unfold wrap64
  unfold minInt64 at hlo
  unfold maxInt64 at hhi
  omega

theorem asInt64_range (v : RVal) (n : Int) (h : v.asInt64 = some n) :
    minInt64 ≤ n ∧ n ≤ maxInt64 := by
  cases v with
  | str s =>
    simp only [RVal.asInt64] at h
    split at h
    · split_ifs at h with hr
      cases h
      exact hr
    · cases h
  | int m =>
    simp only [RVal.asInt64] at h
    split_ifs at h with hr
    cases h
    exact hr
  | set ms => cases h

/-! ## The store's `INCR` on text that is not canonical -/

/-- The client reads the text `+7` as 7, while `INCR` refuses it and leaves it in place. -/
theorem Incr_refuses_plus_seven :
    (plusSevenStore.Get testNow "counter").Int64 = (7, none)
    ∧ (plusSevenStore.Incr testNow "counter").1 = some Error.notInteger
    ∧ ((plusSevenStore.Incr testNow "counter").2.Get testNow "counter").Int64 = (7, none) := by
  decide

/-! ## C4: a consume attempt with the wrong code -/

theorem online_of_getVerificationCode (r : VerificationCodeRdb) (db : Redis) (now : Nat)
    (objName c : String) (h : r.getVerificationCode db now objName = (true, c, none)) :
    db.online = true := by
  by_contra hoff
  simp [VerificationCodeRdb.getVerificationCode, Redis.Get, hoff, StringCmd.Result] at h

/-- The failure counter after `increaseErrorCount`, when it read as `n` before. -/
theorem increaseErrorCount_entry (r : VerificationCodeRdb) (clk : LocalClock) (db : Redis)
    (now : Nat) (objName : String) (n : Int) (hon : db.online = true)
    (hcnt : r.queryErrorsCountToday clk db now objName = (n, none)) (hn : n < maxInt64)
    (htext : db.holdsCounterText now
      (r.getRedisFieldNameVerificationCodeErrorCount clk now objName) = true) :
    (r.increaseErrorCount clk db now objName).data
        (r.getRedisFieldNameVerificationCodeErrorCount clk now objName)
      = some ⟨.int (n + 1), some (clk.tomorrowZero now)⟩ ∧ minInt64 ≤ n + 1 := by
  simp only [VerificationCodeRdb.queryErrorsCountToday, Redis.Get, hon, if_true] at hcnt
  simp only [VerificationCodeRdb.increaseErrorCount, Redis.Incr, hon, if_true]
  generalize r.getRedisFieldNameVerificationCodeErrorCount clk now objName = key
    at hcnt htext ⊢
  cases hl : db.lookup now key with
  | none =>
    simp only [hl, StringCmd.Int64] at hcnt
    have hn0 : n = 0 := by
      simp at hcnt
      exact hcnt.symm
    subst hn0
    simp [Redis.ExpireAt, put_online, hon, Redis.lookup, put_data_same, minInt64]
  | some e =>
    have hdata := (lookup_eq_data_of_ne_none db now key (by simp [hl])).symm.trans hl
    have hlive : ∀ exp, e.expireAt = some exp → now < exp := by
      intro exp hexp
      by_contra hnot
      simp [Redis.lookup, hdata, hexp, hnot] at hl
    simp only [hl] at hcnt ⊢
    cases hv : e.val with
    | set ms => simp [hv, StringCmd.Int64] at hcnt
    | str sv =>
      simp only [hv, StringCmd.Int64] at hcnt ⊢
      cases ha : (RVal.str sv).asInt64 with
      | none => simp [ha] at hcnt
      | some m =>
        have hcanon : canonicalDecimal sv = true := by
          simpa [Redis.holdsCounterText, hl, hv] using htext
        have hincr : (RVal.str sv).asIncrInt64 = some m := by
          simp [RVal.asIncrInt64, hcanon, ha]
        simp only [ha] at hcnt
        simp only [hincr]
        have hm : m = n := by simpa using hcnt
        subst hm
        have hr := asInt64_range _ _ ha
        simp only [if_pos hn]
        cases hx : e.expireAt with
        | none =>
          simp [Redis.ExpireAt, put_online, hon, Redis.lookup, put_data_same]
          unfold minInt64 at hr ⊢
          omega
        | some exp =>
          simp [Redis.ExpireAt, put_online, hon, Redis.lookup, put_data_same, hlive exp hx]
          unfold minInt64 at hr ⊢
          omega
    | int k =>
      simp only [hv, StringCmd.Int64] at hcnt ⊢
      cases ha : (RVal.int k).asInt64 with
      | none => simp [ha] at hcnt
      | some m =>
        have hincr : (RVal.int k).asIncrInt64 = some m := ha
        simp only [ha] at hcnt
        simp only [hincr]
        have hm : m = n := by simpa using hcnt
        subst hm
        have hr := asInt64_range _ _ ha
        simp only [if_pos hn]
        cases hx : e.expireAt with
        | none =>
          simp [Redis.ExpireAt, put_online, hon, Redis.lookup, put_data_same]
          unfold minInt64 at hr ⊢
          omega
        | some exp =>
          simp [Redis.ExpireAt, put_online, hon, Redis.lookup, put_data_same, hlive exp hx]
          unfold minInt64 at hr ⊢
          omega

theorem increaseErrorCount_online (r : VerificationCodeRdb) (clk : LocalClock) (db : Redis)
    (now : Nat) (objName : String) :
    (r.increaseErrorCount clk db now objName).online = db.online := by
  simp [VerificationCodeRdb.increaseErrorCount, ExpireAt_online, Incr_online]

theorem increaseErrorCount_data_other (r : VerificationCodeRdb) (clk : LocalClock) (db : Redis)
    (now : Nat) (objName k : String)
    (hk : k ≠ r.getRedisFieldNameVerificationCodeErrorCount clk now objName) :
    (r.increaseErrorCount clk db now objName).data k = db.data k := by
  simp [VerificationCodeRdb.increaseErrorCount, ExpireAt_data_other _ _ _ _ _ hk,
    Incr_data_other _ _ _ _ hk]

theorem updateLastErrorTime_online (r : VerificationCodeRdb) (clk : LocalClock) (db : Redis)
    (now : Nat) (objName : String) :
    (r.updateLastErrorTime clk db now objName).online = db.online := by
  simp [VerificationCodeRdb.updateLastErrorTime, Set_online]

theorem updateLastErrorTime_data_other (r : VerificationCodeRdb) (clk : LocalClock) (db : Redis)
    (now : Nat) (objName k : String)
    (hk : k ≠ r.getRedisFieldNameVerificationCodeLastFailedTime clk now objName) :
    (r.updateLastErrorTime clk db now objName).data k = db.data k := by
  simp [VerificationCodeRdb.updateLastErrorTime, Set_data_other _ _ _ _ _ _ hk]

/-- The duration handed to `Set` by `updateLastErrorTime` is the time left until the next
local midnight, as long as that midnight has a Unix time in nanoseconds. -/
theorem untilMidnight_nanos (now tz : Nat) (hmid : now < tz)
    (hclock : (tz : Int) * timeSecond ≤ maxInt64) :
    wrap64 (wrap64 ((tz : Int) * timeSecond) - wrap64 ((now : Int) * timeSecond))
      = ((tz : Int) - (now : Int)) * timeSecond := by
  unfold timeSecond maxInt64 at *
  have h1 : wrap64 ((tz : Int) * 1000000000) = (tz : Int) * 1000000000 := by
    apply wrap64_of_range
    · unfold minInt64; omega
    · unfold maxInt64; omega
  have h2 : wrap64 ((now : Int) * 1000000000) = (now : Int) * 1000000000 := by
    apply wrap64_of_range
    · unfold minInt64; omega
    · unfold maxInt64; omega
  rw [h1, h2]
  have h3 : (tz : Int) * 1000000000 - (now : Int) * 1000000000
      = ((tz : Int) - (now : Int)) * 1000000000 := by ring
  rw [h3]
  apply wrap64_of_range
  · unfold minInt64; omega
  · unfold maxInt64; omega

theorem updateLastErrorTime_entry (r : VerificationCodeRdb) (clk : LocalClock) (db : Redis)
    (now : Nat) (objName : String) (hon : db.online = true)
    (hmid : now < clk.tomorrowZero now)
    (hclock : (clk.tomorrowZero now : Int) * timeSecond ≤ maxInt64) :
    (r.updateLastErrorTime clk db now objName).data
        (r.getRedisFieldNameVerificationCodeLastFailedTime clk now objName)
      = some ⟨.int (now : Int), some (clk.tomorrowZero now)⟩ := by
  have hpos : (0 : Int) < ((clk.tomorrowZero now : Int) - (now : Int)) * timeSecond := by
    unfold timeSecond
    omega
  have hdiv : ((((clk.tomorrowZero now : Int) - (now : Int)) * timeSecond) / timeSecond).toNat
      = clk.tomorrowZero now - now := by
    rw [Int.mul_ediv_cancel _ (by unfold timeSecond; decide)]
    omega
  simp only [VerificationCodeRdb.updateLastErrorTime, untilMidnight_nanos _ _ hmid hclock,
    Redis.Set, hon, if_true, if_pos hpos, put_data_same, hdiv]
  have : now + (clk.tomorrowZero now - now) = clk.tomorrowZero now := by omega
  rw [this]

theorem Get_Int64_of_int (db : Redis) (now : Nat) (key : String) (m : Int) (t : Nat)
    (hon : db.online = true) (hdata : db.data key = some ⟨.int m, some t⟩) (hlive : now < t)
    (hlo : minInt64 ≤ m) (hhi : m ≤ maxInt64) :
    (db.Get now key).Int64 = (m, none) := by
  simp [Redis.Get, hon, Redis.lookup, hdata, hlive, StringCmd.Int64, RVal.asInt64, hlo, hhi]

theorem getVerificationCode_congr (r : VerificationCodeRdb) (db db2 : Redis) (now : Nat)
    (objName : String) (hon : db2.online = db.online)
    (hdata : db2.data (r.getRedisFieldNameVerificationCode objName)
      = db.data (r.getRedisFieldNameVerificationCode objName)) :
    r.getVerificationCode db2 now objName = r.getVerificationCode db now objName := by
  simp [VerificationCodeRdb.getVerificationCode, Redis.Get, hon,
    lookup_congr db db2 now _ hdata]

/-- C4: for a subject whose active code reads as `c`, a candidate `x` different from `c`, a
failure counter that reads as `n` before the call (below the largest 64-bit integer) and
whose key is absent or holds what the store's `INCR` accepts (canonical decimal text), and a
clock whose next local midnight lies ahead and has a Unix time in nanoseconds,
`VerifyAndUseVerificationCode(subject, x)` returns `(exist = true, success = false, err = nil)`;
afterwards today's failure counter reads `n + 1`, today's last-failure time reads the Unix
time of the call, and the active code record is the one from before the call and reads `c`. -/
theorem consume_mismatch_records_failure (r : VerificationCodeRdb) (clk : LocalClock)
    (db : Redis) (now : Nat) (objName c x : String) (n : Int)
    (hactive : r.getVerificationCode db now objName = (true, c, none))
    (hx : x ≠ c)
    (hcnt : r.QueryErrorsCountToday clk db now objName = (n, none))
    (hn : n < maxInt64)
    (htext : db.holdsCounterText now
      (r.getRedisFieldNameVerificationCodeErrorCount clk now objName) = true)
    (hmid : now < clk.tomorrowZero now)
    (hclock : (clk.tomorrowZero now : Int) * timeSecond ≤ maxInt64) :
    (r.VerifyAndUseVerificationCode clk db now objName x).1 = (true, false, none)
    ∧ r.QueryErrorsCountToday clk (r.VerifyAndUseVerificationCode clk db now objName x).2 now
        objName = (n + 1, none)
    ∧ r.QueryLastErrorTime clk (r.VerifyAndUseVerificationCode clk db now objName x).2 now
        objName = (true, (now : Int), none)
    ∧ (r.VerifyAndUseVerificationCode clk db now objName x).2.data
        (r.getRedisFieldNameVerificationCode objName)
        = db.data (r.getRedisFieldNameVerificationCode objName)
    ∧ r.getVerificationCode (r.VerifyAndUseVerificationCode clk db now objName x).2 now objName
        = (true, c, none) := by
  have hon := online_of_getVerificationCode r db now objName c hactive
  have hcx : (c == x) = false := by
    simp only [beq_eq_false_iff_ne, ne_eq]
    exact fun h => hx h.symm
  have hstep : r.VerifyAndUseVerificationCode clk db now objName x
      = ((true, false, none), r.verifyFail clk db now objName) := by
    simp [VerificationCodeRdb.VerifyAndUseVerificationCode,
      VerificationCodeRdb.verifyAndUseVerificationCode, hactive, hcx]
  rw [hstep]
  have hon1 : (r.increaseErrorCount clk db now objName).online = true := by
    rw [increaseErrorCount_online, hon]
  have hon2 : (r.verifyFail clk db now objName).online = true := by
    simp [VerificationCodeRdb.verifyFail, updateLastErrorTime_online, hon1]
  obtain ⟨hentry, hlo⟩ := increaseErrorCount_entry r clk db now objName n hon hcnt hn htext
  have hcount : (r.verifyFail clk db now objName).data
      (r.getRedisFieldNameVerificationCodeErrorCount clk now objName)
        = some ⟨.int (n + 1), some (clk.tomorrowZero now)⟩ := by
    simp only [VerificationCodeRdb.verifyFail]
    rw [updateLastErrorTime_data_other _ _ _ _ _ _
      (errorCountKey_ne_lastFailedKey r clk now objName), hentry]
  have hlast : (r.verifyFail clk db now objName).data
      (r.getRedisFieldNameVerificationCodeLastFailedTime clk now objName)
        = some ⟨.int (now : Int), some (clk.tomorrowZero now)⟩ := by
    simp only [VerificationCodeRdb.verifyFail]
    exact updateLastErrorTime_entry r clk _ now objName hon1 hmid hclock
  have hcode : (r.verifyFail clk db now objName).data
      (r.getRedisFieldNameVerificationCode objName)
        = db.data (r.getRedisFieldNameVerificationCode objName) := by
    simp only [VerificationCodeRdb.verifyFail]
    rw [updateLastErrorTime_data_other _ _ _ _ _ _ (codeKey_ne_lastFailedKey r clk now objName),
      increaseErrorCount_data_other _ _ _ _ _ _ (codeKey_ne_errorCountKey r clk now objName)]
  have hnowhi : (now : Int) ≤ maxInt64 := by
    unfold timeSecond maxInt64 at *
    omega
  refine ⟨rfl, ?_, ?_, hcode, ?_⟩
  · have hhi : n + 1 ≤ maxInt64 := by omega
    simp [VerificationCodeRdb.QueryErrorsCountToday, VerificationCodeRdb.queryErrorsCountToday,
      Get_Int64_of_int _ now _ (n + 1) _ hon2 hcount hmid hlo hhi]
  · have hlo2 : minInt64 ≤ (now : Int) := by
      unfold minInt64
      omega
    simp [VerificationCodeRdb.QueryLastErrorTime, VerificationCodeRdb.queryLastErrorTime,
      Get_Int64_of_int _ now _ (now : Int) _ hon2 hlast hmid hlo2 hnowhi]
  · rw [getVerificationCode_congr r db _ now objName (by rw [hon2, hon]) hcode, hactive]

/-- C4 witness: the test's `VerifyAndUseVerificationCode(testPhoneNum, testVerCode+"fake")`
five seconds after the issuance, on a counter that reads 0. -/
theorem consume_mismatch_records_failure_witness :
    (testRdb.VerifyAndUseVerificationCode utcClock issuedOnce (testNow + 5) testPhoneNum
        "TestTestfake").1 = (true, false, none)
    ∧ testRdb.QueryErrorsCountToday utcClock
        (testRdb.VerifyAndUseVerificationCode utcClock issuedOnce (testNow + 5) testPhoneNum
          "TestTestfake").2 (testNow + 5) testPhoneNum = (0 + 1, none)
    ∧ testRdb.QueryLastErrorTime utcClock
        (testRdb.VerifyAndUseVerificationCode utcClock issuedOnce (testNow + 5) testPhoneNum
          "TestTestfake").2 (testNow + 5) testPhoneNum = (true, ((testNow + 5 : Nat) : Int), none)
    ∧ (testRdb.VerifyAndUseVerificationCode utcClock issuedOnce (testNow + 5) testPhoneNum
          "TestTestfake").2.data (testRdb.getRedisFieldNameVerificationCode testPhoneNum)
        = issuedOnce.data (testRdb.getRedisFieldNameVerificationCode testPhoneNum)
    ∧ testRdb.getVerificationCode
        (testRdb.VerifyAndUseVerificationCode utcClock issuedOnce (testNow + 5) testPhoneNum
          "TestTestfake").2 (testNow + 5) testPhoneNum = (true, testVerCode, none) :=
  consume_mismatch_records_failure testRdb utcClock issuedOnce (testNow + 5) testPhoneNum
    testVerCode "TestTestfake" 0 (by decide) (by decide) (by decide) (by decide) (by decide)
    (by decide) (by decide)

/-! ## C6: the unused-code predicate -/

theorem online_of_count (r : VerificationCodeRdb) (clk : LocalClock) (db : Redis) (now : Nat)
    (objName : String) (cnt : Int)
    (h : r.queryCountOfUnusedVerificationCode clk db now objName = (cnt, none)) :
    db.online = true := by
  by_contra hoff
  simp [VerificationCodeRdb.queryCountOfUnusedVerificationCode, Redis.SCard, hoff] at h

theorem getVerificationCode_exist (r : VerificationCodeRdb) (db : Redis) (now : Nat)
    (objName : String) (hon : db.online = true) :
    (r.getVerificationCode db now objName).1 = r.activeCodeExists db now objName := by
  unfold VerificationCodeRdb.getVerificationCode VerificationCodeRdb.activeCodeExists Redis.Get
  simp only [hon, if_true]
  cases db.lookup now (r.getRedisFieldNameVerificationCode objName) with
  | none => simp [StringCmd.Result]
  | some e =>
    cases hv : e.val <;> simp [StringCmd.Result, hv]

/-- C6: with `cnt` the cardinality read from the subject's set of unused codes and `ceiling`
the policy's `DenyThresholdOfUnusedCode`, `CheckIsUnusedCodeTooMany` returns not violated if
`cnt < ceiling`, violated if `cnt > ceiling` and `ceiling > 0`, and, if `cnt = ceiling`,
violated exactly when an active (non-expired) code exists for the subject. -/
theorem checkIsUnusedCodeTooMany_three_way (r : VerificationCodeRdb) (clk : LocalClock)
    (db : Redis) (now : Nat) (objName : String) (cnt : Int)
    (hcnt : r.QueryCountOfUnusedVerificationCode clk db now objName = (cnt, none)) :
    (cnt < r.strategy.DenyThresholdOfUnusedCode →
        r.CheckIsUnusedCodeTooMany clk db now objName = (false, none))
    ∧ (cnt > r.strategy.DenyThresholdOfUnusedCode ∧ r.strategy.DenyThresholdOfUnusedCode > 0 →
        r.CheckIsUnusedCodeTooMany clk db now objName = (true, none))
    ∧ (cnt = r.strategy.DenyThresholdOfUnusedCode →
        ((r.CheckIsUnusedCodeTooMany clk db now objName).1 = true
          ↔ r.activeCodeExists db now objName = true)) := by
  have hq : r.queryCountOfUnusedVerificationCode clk db now objName = (cnt, none) := hcnt
  have hon := online_of_count r clk db now objName cnt hq
  refine ⟨?_, ?_, ?_⟩
  · intro hlt
    simp [VerificationCodeRdb.CheckIsUnusedCodeTooMany,
      VerificationCodeRdb.checkIsUnusedCodeTooMany, hq, hlt]
  · intro hgt
    have hnlt : ¬ cnt < r.strategy.DenyThresholdOfUnusedCode := by omega
    simp [VerificationCodeRdb.CheckIsUnusedCodeTooMany,
      VerificationCodeRdb.checkIsUnusedCodeTooMany, hq, hnlt, hgt.1, hgt.2]
  · intro heq
    have hnlt : ¬ cnt < r.strategy.DenyThresholdOfUnusedCode := by omega
    have hngt : ¬ (cnt > r.strategy.DenyThresholdOfUnusedCode
        ∧ r.strategy.DenyThresholdOfUnusedCode > 0) := by omega
    simp only [VerificationCodeRdb.CheckIsUnusedCodeTooMany,
      VerificationCodeRdb.checkIsUnusedCodeTooMany, hq, ne_eq, not_true_eq_false, if_false,
      if_neg hnlt, if_neg hngt, getVerificationCode_exist r db now objName hon]

/-- C6 witness, the run of `TestUncheckedVerCode` with ceiling 5: after four issued codes the
predicate reports not violated, after the fifth (count equal to the ceiling, the fifth code
still active) it reports violated. -/
theorem checkIsUnusedCodeTooMany_three_way_witness :
    testRdb.CheckIsUnusedCodeTooMany utcClock issuedFour (testNow + 3) testPhoneNum = (false, none)
    ∧ (testRdb.CheckIsUnusedCodeTooMany utcClock issuedFive (testNow + 4) testPhoneNum).1 = true :=
  ⟨(checkIsUnusedCodeTooMany_three_way testRdb utcClock issuedFour (testNow + 3) testPhoneNum 4
      (by decide)).1 (by decide),
   ((checkIsUnusedCodeTooMany_three_way testRdb utcClock issuedFive (testNow + 4) testPhoneNum 5
      (by decide)).2.2 (by decide)).mpr (by decide)⟩

/-! ## C7: the verify-fail predicate against its reference definition -/

/-- The `Range` loop of `checkIsVerifyFailTooFrequently` finds a ban entry exactly when one
exists, whatever the visiting order. -/
theorem syncMapRange_ban (cnt : Int) (now : Nat) (last : Int) (entries : List (Int × Int)) :
    syncMapRange (banRangeBody cnt now last) entries false
      = decide (∃ e ∈ entries, cnt ≥ e.1 ∧ wrap64 ((now : Int) - last) ≤ e.2) := by
  induction entries with
  | nil => simp [syncMapRange]
  | cons e rest ih =>
    obtain ⟨t, d⟩ := e
    by_cases hc : cnt ≥ t ∧ wrap64 ((now : Int) - last) ≤ d
    · have hb : (decide (cnt ≥ t) && decide (wrap64 ((now : Int) - last) ≤ d)) = true := by
        simp [hc.1, hc.2]
      simp only [syncMapRange, banRangeBody, hb]
      simp [hc.1, hc.2]
    · have hb : (decide (cnt ≥ t) && decide (wrap64 ((now : Int) - last) ≤ d)) = false := by
        simp only [Bool.and_eq_false_iff, decide_eq_false_iff_not]
        by_cases h1 : cnt ≥ t
        · exact Or.inr (fun h2 => hc ⟨h1, h2⟩)
        · exact Or.inl h1
      simp only [syncMapRange, banRangeBody, hb, ih]
      simp only [beq_self_eq_true, if_true, List.mem_cons, exists_eq_or_imp, decide_eq_decide]
      constructor
      · intro h
        exact Or.inr h
      · intro h
        rcases h with h | h
        · exact absurd h hc
        · exact h

theorem queryLastErrorTime_range (r : VerificationCodeRdb) (clk : LocalClock) (db : Redis)
    (now : Nat) (objName : String) (last : Int)
    (h : r.queryLastErrorTime clk db now objName = (true, last, none)) :
    minInt64 ≤ last ∧ last ≤ maxInt64 := by
  unfold VerificationCodeRdb.queryLastErrorTime at h
  generalize db.Get now (r.getRedisFieldNameVerificationCodeLastFailedTime clk now objName) = cmd
    at h
  unfold StringCmd.Int64 at h
  cases he : cmd.err with
  | some e =>
    simp only [he] at h
    split_ifs at h
    · simp at h
    · simp at h
  | none =>
    simp only [he] at h
    cases ha : cmd.val.asInt64 with
    | none => simp [ha] at h
    | some m =>
      simp [ha] at h
      rw [← h]
      exact asInt64_range _ _ ha

/-- C7: with `cnt` today's failure count as read from the store, `last` the recorded time of
the last failure (a Unix time, on record whenever `cnt` is not 0), the clock `now` within the
64-bit range, and `mapping` the ban mapping in any order, `CheckIsVerifyFailTooFrequently`
equals the reference definition: not violated if `cnt = 0`; else violated if the failure
ceiling is positive and `cnt` reaches it; otherwise violated exactly when some entry
`(thresholdCount, banDuration)` has `cnt ≥ thresholdCount` and `now - last ≤ banDuration`. -/
theorem CheckIsVerifyFailTooFrequently_eq_spec (r : VerificationCodeRdb) (clk : LocalClock)
    (db : Redis) (now : Nat) (objName : String) (cnt last : Int) (mapping : List (Int × Int))
    (hcnt : r.QueryErrorsCountToday clk db now objName = (cnt, none))
    (hlast : cnt ≠ 0 → r.QueryLastErrorTime clk db now objName = (true, last, none))
    (hpast : 0 ≤ last)
    (hnow : (now : Int) ≤ maxInt64)
    (hvisit : (r.strategy.TemporarilyBanStrategy.getD []).Perm mapping) :
    r.CheckIsVerifyFailTooFrequently clk db now objName
      = (verifyFailTooFrequentlySpec cnt r.strategy.DenyThresholdOfFailedCount mapping
          (now : Int) last, none) := by
  have hq : r.queryErrorsCountToday clk db now objName = (cnt, none) := hcnt
  unfold VerificationCodeRdb.CheckIsVerifyFailTooFrequently
    VerificationCodeRdb.checkIsVerifyFailTooFrequently verifyFailTooFrequentlySpec
  simp only [hq]
  by_cases h0 : cnt = 0
  · simp [h0]
  · by_cases hceil : r.strategy.DenyThresholdOfFailedCount > 0
        ∧ cnt ≥ r.strategy.DenyThresholdOfFailedCount
    · simp [h0, hceil.1, hceil.2]
    · have hl : r.queryLastErrorTime clk db now objName = (true, last, none) := hlast h0
      have hrange := queryLastErrorTime_range r clk db now objName last hl
      have hw : wrap64 ((now : Int) - last) = (now : Int) - last := by
        apply wrap64_of_range
        · unfold minInt64; unfold maxInt64 at hrange; omega
        · unfold maxInt64 at *; omega
      simp only [ne_eq, not_true_eq_false, h0, or_self, if_false, if_neg hceil]
      cases hm : r.strategy.TemporarilyBanStrategy with
      | none =>
        rw [hm] at hvisit
        have hnil : mapping = [] := List.Perm.eq_nil (hvisit.symm)
        simp [hnil]
      | some visit =>
        rw [hm] at hvisit
        simp only [hl, ne_eq, not_true_eq_false, or_self, if_false, syncMapRange_ban, hw,
          Bool.true_eq_false, Option.getD_some] at hvisit ⊢
        congr 1
        simp only [decide_eq_decide]
        constructor
        · rintro ⟨e, he, hcond⟩
          exact ⟨e, hvisit.mem_iff.mp he, hcond⟩
        · rintro ⟨e, he, hcond⟩
          exact ⟨e, hvisit.mem_iff.mpr he, hcond⟩

/-- C7 witness, failure ceiling 5 and ban mapping 3 ↦ 40, 5 ↦ 120: with 3 failures on record,
the last at `testNow + 3`, the predicate reports violated 40 seconds after the last failure
and not violated 41 seconds after it.  The mapping is handed over in the other order. -/
theorem CheckIsVerifyFailTooFrequently_eq_spec_witness :
    banExampleRdb.CheckIsVerifyFailTooFrequently utcClock threeFailures (testNow + 43)
        testPhoneNum = (true, none)
    ∧ banExampleRdb.CheckIsVerifyFailTooFrequently utcClock threeFailures (testNow + 44)
        testPhoneNum = (false, none) :=
  ⟨(CheckIsVerifyFailTooFrequently_eq_spec banExampleRdb utcClock threeFailures (testNow + 43)
      testPhoneNum 3 ((testNow + 3 : Nat) : Int) [(5, 120), (3, 40)] (by decide)
      (fun _ => by decide) (by decide) (by decide) (by decide)).trans (by decide),
   (CheckIsVerifyFailTooFrequently_eq_spec banExampleRdb utcClock threeFailures (testNow + 44)
      testPhoneNum 3 ((testNow + 3 : Nat) : Int) [(5, 120), (3, 40)] (by decide)
      (fun _ => by decide) (by decide) (by decide) (by decide)).trans (by decide)⟩

/-! ## C8: the number of unused codes after a run of issuances -/

theorem HoldsSet_lookup (db : Redis) (key : String) (times : List Nat) (ms : List String)
    (t : Nat) (h : db.HoldsSet key times ms) (ht : t ∈ times) :
    (ms = [] ∧ db.lookup t key = none)
      ∨ ∃ exp, db.lookup t key = some ⟨.set ms, some exp⟩ := by
  rcases h.2 with ⟨hnil, habs⟩ | ⟨exp, hdata, hlive⟩
  · exact Or.inl ⟨hnil, habs t ht⟩
  · exact Or.inr ⟨exp, by simp [Redis.lookup, hdata, hlive t ht]⟩

/-- One `addUnusedVerificationCode` inserts the code and pins the set's expiry to the next
local midnight. -/
theorem addUnused_entry (r : VerificationCodeRdb) (clk : LocalClock) (db : Redis) (now : Nat)
    (objName verCode : String) (ms : List String) (hon : db.online = true)
    (hstate : (ms = [] ∧ db.lookup now (r.getRedisFieldNameVerificationCodeSet clk now objName)
          = none)
      ∨ ∃ exp, db.lookup now (r.getRedisFieldNameVerificationCodeSet clk now objName)
          = some ⟨.set ms, some exp⟩) :
    (r.addUnusedVerificationCode clk db now objName verCode).data
        (r.getRedisFieldNameVerificationCodeSet clk now objName)
      = some ⟨.set (ms.insert verCode), some (clk.tomorrowZero now)⟩ := by
  simp only [VerificationCodeRdb.addUnusedVerificationCode, Redis.SAdd, hon, if_true]
  generalize r.getRedisFieldNameVerificationCodeSet clk now objName = key at hstate ⊢
  rcases hstate with ⟨hnil, habs⟩ | ⟨exp, hl⟩
  · subst hnil
    simp only [habs]
    simp [Redis.ExpireAt, put_online, hon, Redis.lookup, put_data_same]
  · have hdata := (lookup_eq_data_of_ne_none db now key (by simp [hl])).symm.trans hl
    have hlive : now < exp := by
      by_contra hnot
      simp [Redis.lookup, hdata, hnot] at hl
    simp only [hl]
    simp [Redis.ExpireAt, put_online, hon, Redis.lookup, put_data_same, hlive]

/-- One issuance keeps `HoldsSet`, with the issued code inserted. -/
theorem issue_HoldsSet (r : VerificationCodeRdb) (clk : LocalClock) (db : Redis) (now : Nat)
    (objName verCode : String) (times : List Nat) (ms : List String)
    (h : db.HoldsSet (r.getRedisFieldNameVerificationCodeSet clk now objName) times ms)
    (hnow : now ∈ times) (hmid : ∀ t ∈ times, t < clk.tomorrowZero now) :
    (r.SetAndRegisterVerificationCode clk db now objName verCode).2.HoldsSet
      (r.getRedisFieldNameVerificationCodeSet clk now objName) times (ms.insert verCode) := by
  have hon := h.1
  have hset1 : (r.setVerificationCode db now objName verCode
      (wrap64 (r.strategy.ValidityDuration * timeSecond))).1 = none := by
    simp only [VerificationCodeRdb.setVerificationCode, Redis.Set, hon, if_true]
    split_ifs <;> rfl
  have hne := (codeKey_ne_setKey r clk now objName).symm
  have hon1 : (r.setVerificationCode db now objName verCode
      (wrap64 (r.strategy.ValidityDuration * timeSecond))).2.online = true := by
    simp [VerificationCodeRdb.setVerificationCode, Set_online, hon]
  have hdata1 : (r.setVerificationCode db now objName verCode
      (wrap64 (r.strategy.ValidityDuration * timeSecond))).2.data
        (r.getRedisFieldNameVerificationCodeSet clk now objName)
      = db.data (r.getRedisFieldNameVerificationCodeSet clk now objName) := by
    simp [VerificationCodeRdb.setVerificationCode, Set_data_other _ _ _ _ _ _ hne]
  have hstate := HoldsSet_lookup db _ times ms now h hnow
  rw [← lookup_congr db _ now _ hdata1] at hstate
  have hentry := addUnused_entry r clk _ now objName verCode ms hon1 hstate
  simp only [VerificationCodeRdb.SetAndRegisterVerificationCode,
    VerificationCodeRdb.setAndRegisterVerificationCode, hset1, ne_eq, not_true_eq_false,
    if_false]
  refine ⟨?_, Or.inr ⟨clk.tomorrowZero now, hentry, hmid⟩⟩
  rw [addUnused_online, hon1]

theorem issueAll_HoldsSet (r : VerificationCodeRdb) (clk : LocalClock) (objName key : String)
    (times : List Nat) (issues : List (Nat × String)) :
    ∀ (db : Redis) (ms : List String), db.HoldsSet key times ms →
      (∀ p ∈ issues, p.1 ∈ times ∧ r.getRedisFieldNameVerificationCodeSet clk p.1 objName = key
        ∧ ∀ t ∈ times, t < clk.tomorrowZero p.1) →
      (r.issueAll clk objName db issues).HoldsSet key times
        ((issues.map Prod.snd).foldl (fun acc c => acc.insert c) ms) := by
  induction issues with
  | nil =>
    intro db ms h _
    exact h
  | cons p rest ih =>
    intro db ms h hall
    obtain ⟨hin, hkey, hmid⟩ := hall p (List.mem_cons_self _ _)
    obtain ⟨now, verCode⟩ := p
    simp only [VerificationCodeRdb.issueAll, List.map_cons, List.foldl_cons]
    apply ih
    · subst hkey
      exact issue_HoldsSet r clk db now objName verCode times ms h hin hmid
    · intro q hq
      exact hall q (List.mem_cons_of_mem _ hq)

theorem foldl_insert_spec (codes : List String) :
    ∀ ms : List String, ms.Nodup →
      (codes.foldl (fun acc c => acc.insert c) ms).Nodup
        ∧ ∀ c, c ∈ codes.foldl (fun acc c => acc.insert c) ms ↔ c ∈ ms ∨ c ∈ codes := by
  induction codes with
  | nil =>
    intro ms hms
    simp [hms]
  | cons a rest ih =>
    intro ms hms
    obtain ⟨hnd, hmem⟩ := ih (ms.insert a) hms.insert
    refine ⟨hnd, ?_⟩
    intro c
    simp only [List.foldl_cons, hmem, List.mem_insert_iff, List.mem_cons]
    tauto

theorem foldl_insert_length (codes : List String) :
    (codes.foldl (fun acc c => acc.insert c) []).length = codes.dedup.length := by
  obtain ⟨hnd, hmem⟩ := foldl_insert_spec codes [] List.nodup_nil
  apply List.Perm.length_eq
  rw [List.perm_ext_iff_of_nodup hnd (List.nodup_dedup codes)]
  intro c
  simp [hmem]

theorem count_of_HoldsSet (r : VerificationCodeRdb) (clk : LocalClock) (db : Redis) (tq : Nat)
    (objName : String) (times : List Nat) (ms : List String)
    (h : db.HoldsSet (r.getRedisFieldNameVerificationCodeSet clk tq objName) times ms)
    (htq : tq ∈ times) :
    r.queryCountOfUnusedVerificationCode clk db tq objName = ((ms.length : Int), none) := by
  have hon := h.1
  rcases HoldsSet_lookup db _ times ms tq h htq with ⟨hnil, habs⟩ | ⟨exp, hl⟩
  · simp [VerificationCodeRdb.queryCountOfUnusedVerificationCode, Redis.SCard, hon, habs, hnil]
  · simp [VerificationCodeRdb.queryCountOfUnusedVerificationCode, Redis.SCard, hon, hl]

/-- C8 counterexample: on an empty store the same code value is issued twice on one day with
no consume in between; `QueryCountOfUnusedVerificationCode` then returns 1, not the number
N = 2 of issued codes. -/
theorem unused_count_repeated_code :
    testRdb.QueryCountOfUnusedVerificationCode utcClock
        (testRdb.issueAll utcClock testPhoneNum Redis.empty testRepeatedIssues) (testNow + 1)
        testPhoneNum = (1, none)
    ∧ testRdb.QueryCountOfUnusedVerificationCode utcClock
        (testRdb.issueAll utcClock testPhoneNum Redis.empty testRepeatedIssues) (testNow + 1)
        testPhoneNum ≠ ((testRepeatedIssues.length : Int), none) := by
  decide

/-- C8 (amended): for a subject whose set of unused codes is absent, and a run of issuances
and a later query that all fall on one calendar day before the next local midnight, with no
consume in between, `QueryCountOfUnusedVerificationCode` returns the number of distinct code
values issued; it returns exactly N when the N issued values are pairwise distinct. -/
theorem unused_count_after_issues (r : VerificationCodeRdb) (clk : LocalClock) (db : Redis)
    (objName : String) (issues : List (Nat × String)) (tq : Nat)
    (hon : db.online = true)
    (hfresh : ∀ t ∈ tq :: issues.map Prod.fst,
      db.lookup t (r.getRedisFieldNameVerificationCodeSet clk tq objName) = none)
    (hday : ∀ t ∈ issues.map Prod.fst, clk.dayStamp t = clk.dayStamp tq)
    (hmid : ∀ t ∈ issues.map Prod.fst, ∀ t2 ∈ tq :: issues.map Prod.fst,
      t2 < clk.tomorrowZero t) :
    r.QueryCountOfUnusedVerificationCode clk (r.issueAll clk objName db issues) tq objName
        = (((issues.map Prod.snd).dedup.length : Int), none)
    ∧ ((issues.map Prod.snd).Nodup →
        r.QueryCountOfUnusedVerificationCode clk (r.issueAll clk objName db issues) tq objName
          = ((issues.length : Int), none)) := by
  have hinit : db.HoldsSet (r.getRedisFieldNameVerificationCodeSet clk tq objName)
      (tq :: issues.map Prod.fst) [] := ⟨hon, Or.inl ⟨rfl, hfresh⟩⟩
  have hall : ∀ p ∈ issues, p.1 ∈ tq :: issues.map Prod.fst
      ∧ r.getRedisFieldNameVerificationCodeSet clk p.1 objName
          = r.getRedisFieldNameVerificationCodeSet clk tq objName
      ∧ ∀ t ∈ tq :: issues.map Prod.fst, t < clk.tomorrowZero p.1 := by
    intro p hp
    have hp1 : p.1 ∈ issues.map Prod.fst := List.mem_map_of_mem _ hp
    refine ⟨List.mem_cons_of_mem _ hp1, ?_, hmid p.1 hp1⟩
    simp [VerificationCodeRdb.getRedisFieldNameVerificationCodeSet, hday p.1 hp1]
  have hfinal := issueAll_HoldsSet r clk objName _ _ issues db [] hinit hall
  have hcount := count_of_HoldsSet r clk _ tq objName _ _ hfinal (List.mem_cons_self _ _)
  have hmain : r.QueryCountOfUnusedVerificationCode clk (r.issueAll clk objName db issues) tq
      objName = (((issues.map Prod.snd).dedup.length : Int), none) := by
    rw [← foldl_insert_length]
    exact hcount
  refine ⟨hmain, ?_⟩
  intro hnd
  rw [hmain, hnd.dedup, List.length_map]

/-- C8 witness: the four distinct codes that open `TestUncheckedVerCode`, issued one second
apart on an empty store, are counted as 4. -/
theorem unused_count_after_issues_witness :
    testRdb.QueryCountOfUnusedVerificationCode utcClock
        (testRdb.issueAll utcClock testPhoneNum Redis.empty testFourIssues) (testNow + 3)
        testPhoneNum = (((testFourIssues.map Prod.snd).dedup.length : Int), none)
    ∧ testRdb.QueryCountOfUnusedVerificationCode utcClock
        (testRdb.issueAll utcClock testPhoneNum Redis.empty testFourIssues) (testNow + 3)
        testPhoneNum = (4, none) :=
  ⟨(unused_count_after_issues testRdb utcClock Redis.empty testPhoneNum testFourIssues
      (testNow + 3) rfl (by decide) (by decide) (by decide)).1,
   (unused_count_after_issues testRdb utcClock Redis.empty testPhoneNum testFourIssues
      (testNow + 3) rfl (by decide) (by decide) (by decide)).2 (by decide)⟩

/-! ## C9 and C10: the request-frequency predicate -/

/-- C10 (the code at the failing input): the policy has `RequestTimeIntervalThreshold = 0`,
the subject's code was issued at this very clock value, so the remaining lifetime equals
`ValidityDuration = 300`; `CheckIsRequestTooFrequently` returns violated. -/
theorem CheckIsRequestTooFrequently_zero_threshold_violated :
    noIntervalRdb.strategy.RequestTimeIntervalThreshold = 0
    ∧ noIntervalRdb.QueryVerificationCodeTTL noIntervalIssued testNow testPhoneNum = (300, none)
    ∧ noIntervalRdb.CheckIsRequestTooFrequently noIntervalIssued testNow testPhoneNum
        = (true, none) := by
  decide

/-! ## C11: an unused-code ceiling of 0 -/

/-- C11 (the code at the failing input): the policy has `DenyThresholdOfUnusedCode = 0` and
the subject has just been issued one code, so the set of unused codes has one member and
the code is active; `CheckIsUnusedCodeTooMany` falls through to the active-code test and
returns violated. -/
theorem CheckIsUnusedCodeTooMany_zero_ceiling_violated :
    noCeilingRdb.strategy.DenyThresholdOfUnusedCode = 0
    ∧ noCeilingRdb.QueryCountOfUnusedVerificationCode utcClock noCeilingIssued testNow
        testPhoneNum = (1, none)
    ∧ noCeilingRdb.activeCodeExists noCeilingIssued testNow testPhoneNum = true
    ∧ noCeilingRdb.CheckIsUnusedCodeTooMany utcClock noCeilingIssued testNow testPhoneNum
        = (true, none) := by
  decide

/-! ## C12: the registered period and its validity flag -/

/-- C12 (the code at the failing input): on an empty store the read of the remaining
lifetime succeeds with 0 (the subject has no active code), and
`QueryVerificationCodeRegisteredPeriod` returns `invalid = false` with period 300 and a nil
error. -/
theorem QueryVerificationCodeRegisteredPeriod_absent_code_not_flagged :
    testRdb.QueryVerificationCodeTTL Redis.empty testNow testPhoneNum = (0, none)
    ∧ testRdb.QueryVerificationCodeRegisteredPeriod Redis.empty testNow testPhoneNum
        = (false, 300, none) := by
  decide

/-! ## C13: the validity duration of a policy stays positive -/

theorem syncMapStore_absent (m : List (Int × Int)) (k v : Int)
    (h : k ∉ m.map Prod.fst) : syncMapStore m k v = m ++ [(k, v)] := by
  induction m with
  | nil => rfl
  | cons e rest ih =>
    simp only [List.map_cons, List.mem_cons, not_or] at h
    have hne : ¬ e.1 = k := fun heq => h.1 heq.symm
    simp [syncMapStore, hne, ih h.2]

/-- Storing the entries of a Go map (distinct keys) one by one rebuilds the same entries. -/
theorem foldl_syncMapStore_distinct (entries : List (Int × Int)) :
    ∀ acc : List (Int × Int), ((acc ++ entries).map Prod.fst).Nodup →
      entries.foldl (fun m e => syncMapStore m e.1 e.2) acc = acc ++ entries := by
  induction entries with
  | nil =>
    intro acc _
    simp
  | cons e rest ih =>
    intro acc hnd
    have habs : e.1 ∉ acc.map Prod.fst := by
      intro hmem
      rw [List.map_append, List.map_cons] at hnd
      have hdis := (List.nodup_append.mp hnd).2.2
      exact hdis hmem (List.mem_cons_self _ _)
    have hnd2 : (((acc ++ [e]) ++ rest).map Prod.fst).Nodup := by
      simpa using hnd
    simp only [List.foldl_cons, syncMapStore_absent acc e.1 e.2 habs]
    rw [ih (acc ++ [e]) hnd2]
    simp

/-- Every call keeps the validity duration positive and the ban mapping allocated. -/
theorem PolicyCall_run_keeps (c : PolicyCall) (s : VerificationCodeServiceStrategy)
    (hpos : 0 < s.ValidityDuration) (hmap : s.TemporarilyBanStrategy ≠ none) :
    ∃ s2, c.run s = some s2 ∧ 0 < s2.ValidityDuration ∧ s2.TemporarilyBanStrategy ≠ none := by
  cases hm : s.TemporarilyBanStrategy with
  | none => exact absurd hm hmap
  | some m =>
    cases c with
    | ModifyValidityDuration d =>
      refine ⟨(s.ModifyValidityDuration d).2, rfl, ?_, ?_⟩
      · unfold VerificationCodeServiceStrategy.ModifyValidityDuration
        split_ifs with hd
        · exact hpos
        · simp only
          omega
      · unfold VerificationCodeServiceStrategy.ModifyValidityDuration
        split_ifs <;> simp [hm]
    | ModifyRequestTimeIntervalThreshold t =>
      exact ⟨_, rfl, hpos, by
        simp [VerificationCodeServiceStrategy.ModifyRequestTimeIntervalThreshold, hm]⟩
    | ModifyDenyThresholdOfFailedCount t =>
      exact ⟨_, rfl, hpos, by
        simp [VerificationCodeServiceStrategy.ModifyDenyThresholdOfFailedCount, hm]⟩
    | ModifyDenyThresholdOfUnusedCode t =>
      exact ⟨_, rfl, hpos, by
        simp [VerificationCodeServiceStrategy.ModifyDenyThresholdOfUnusedCode, hm]⟩
    | AddTemporarilyBanStrategy t d =>
      refine ⟨{ s with TemporarilyBanStrategy := some (syncMapStore m t d) }, ?_, hpos, ?_⟩
      · simp [PolicyCall.run, VerificationCodeServiceStrategy.AddTemporarilyBanStrategy, hm]
      · simp
    | DelTemporarilyBanStrategy t =>
      refine ⟨{ s with TemporarilyBanStrategy := some (syncMapDelete m t) }, ?_, hpos, ?_⟩
      · simp [PolicyCall.run, VerificationCodeServiceStrategy.DelTemporarilyBanStrategy, hm]
      · simp

theorem runPolicyCalls_keeps (calls : List PolicyCall) :
    ∀ s : VerificationCodeServiceStrategy, 0 < s.ValidityDuration →
      s.TemporarilyBanStrategy ≠ none →
      ∃ s2, runPolicyCalls calls s = some s2 ∧ 0 < s2.ValidityDuration := by
  induction calls with
  | nil =>
    intro s hpos _
    exact ⟨s, rfl, hpos⟩
  | cons c rest ih =>
    intro s hpos hmap
    obtain ⟨s1, hrun, hpos1, hmap1⟩ := PolicyCall_run_keeps c s hpos hmap
    obtain ⟨s2, hrest, hpos2⟩ := ih s1 hpos1 hmap1
    exact ⟨s2, by simp [runPolicyCalls, hrun, hrest], hpos2⟩

theorem Create_ok_keeps (duration intervalThreshold unusedThreshold failThreshold : Int)
    (tempBanStrategy : Option (List (Int × Int))) (s0 : VerificationCodeServiceStrategy)
    (h : (CreateVerificationCodeServiceStrategy duration intervalThreshold unusedThreshold
      failThreshold tempBanStrategy).1 = some s0) :
    0 < s0.ValidityDuration ∧ s0.TemporarilyBanStrategy ≠ none := by
  by_cases hd : duration ≤ 0
  · simp [CreateVerificationCodeServiceStrategy, hd] at h
  · cases tempBanStrategy with
    | none =>
      simp only [CreateVerificationCodeServiceStrategy, if_neg hd, Option.some.injEq] at h
      subst h
      exact ⟨by simp only; omega, by simp⟩
    | some entries =>
      simp only [CreateVerificationCodeServiceStrategy, if_neg hd, Option.some.injEq] at h
      subst h
      exact ⟨by simp only; omega, by simp⟩

/-- C13: `CreateVerificationCodeServiceStrategy` fails exactly when `duration ≤ 0` (and then
returns no policy); otherwise it returns the policy whose four scalar fields are the
arguments and whose ban mapping has the entries of the argument map (none for a nil
argument).  `ModifyValidityDuration` fails exactly when `duration ≤ 0`; on failure the
policy is unchanged, on success only `ValidityDuration` changes, to the argument.  Hence
from a successfully constructed policy every sequence of calls of the mutating methods runs
to a policy with `ValidityDuration > 0`. -/
theorem policy_validity_duration_invariant
    (duration intervalThreshold unusedThreshold failThreshold : Int)
    (tempBanStrategy : Option (List (Int × Int))) (s : VerificationCodeServiceStrategy)
    (d : Int) (calls : List PolicyCall) :
    ((CreateVerificationCodeServiceStrategy duration intervalThreshold unusedThreshold
        failThreshold tempBanStrategy).2 ≠ none ↔ duration ≤ 0)
    ∧ (duration ≤ 0 →
        (CreateVerificationCodeServiceStrategy duration intervalThreshold unusedThreshold
          failThreshold tempBanStrategy).1 = none)
    ∧ (0 < duration → ((tempBanStrategy.getD []).map Prod.fst).Nodup →
        CreateVerificationCodeServiceStrategy duration intervalThreshold unusedThreshold
          failThreshold tempBanStrategy
          = (some ⟨duration, intervalThreshold, unusedThreshold, failThreshold,
              some (tempBanStrategy.getD [])⟩, none))
    ∧ ((s.ModifyValidityDuration d).1 ≠ none ↔ d ≤ 0)
    ∧ (d ≤ 0 → (s.ModifyValidityDuration d).2 = s)
    ∧ (0 < d → s.ModifyValidityDuration d = (none, { s with ValidityDuration := d }))
    ∧ (∀ s0, (CreateVerificationCodeServiceStrategy duration intervalThreshold unusedThreshold
          failThreshold tempBanStrategy).1 = some s0 →
        ∃ s2, runPolicyCalls calls s0 = some s2 ∧ 0 < s2.ValidityDuration) := by
  refine ⟨?_, ?_, ?_, ?_, ?_, ?_, ?_⟩
  · by_cases hd : duration ≤ 0
    · simp [CreateVerificationCodeServiceStrategy, hd]
    · cases tempBanStrategy <;> simp [CreateVerificationCodeServiceStrategy, hd]
  · intro hd
    simp [CreateVerificationCodeServiceStrategy, hd]
  · intro hpos hnd
    have hd : ¬ duration ≤ 0 := by omega
    cases tempBanStrategy with
    | none => simp [CreateVerificationCodeServiceStrategy, hd]
    | some entries =>
      have hfold := foldl_syncMapStore_distinct entries [] (by simpa using hnd)
      simp only [CreateVerificationCodeServiceStrategy, if_neg hd, hfold, List.nil_append,
        Option.getD_some]
  · by_cases hd : d ≤ 0 <;>
      simp [VerificationCodeServiceStrategy.ModifyValidityDuration, hd]
  · intro hd
    simp [VerificationCodeServiceStrategy.ModifyValidityDuration, hd]
  · intro hpos
    have hd : ¬ d ≤ 0 := by omega
    simp [VerificationCodeServiceStrategy.ModifyValidityDuration, hd]
  · intro s0 hs0
    obtain ⟨hpos, hmap⟩ := Create_ok_keeps _ _ _ _ _ s0 hs0
    exact runPolicyCalls_keeps calls s0 hpos hmap

/-- C13 witness: the construction of the test file yields the test policy, a construction
with duration 0 yields none; on the test policy `ModifyValidityDuration(0)` changes nothing
and `ModifyValidityDuration(120)` sets the duration; and the run `testPolicyCalls` ends in a
policy with a positive validity duration. -/
theorem policy_validity_duration_invariant_witness :
    CreateVerificationCodeServiceStrategy 300 60 5 10 (some [(3, 40), (5, 120)])
        = (some testStrategy, none)
    ∧ (CreateVerificationCodeServiceStrategy 0 60 5 10 (some [(3, 40), (5, 120)])).1 = none
    ∧ (testStrategy.ModifyValidityDuration 0).2 = testStrategy
    ∧ testStrategy.ModifyValidityDuration 120
        = (none, { testStrategy with ValidityDuration := 120 })
    ∧ ∃ s2, runPolicyCalls testPolicyCalls testStrategy = some s2 ∧ 0 < s2.ValidityDuration :=
  ⟨(policy_validity_duration_invariant 300 60 5 10 (some [(3, 40), (5, 120)]) testStrategy 0
      testPolicyCalls).2.2.1 (by decide) (by decide),
   (policy_validity_duration_invariant 0 60 5 10 (some [(3, 40), (5, 120)]) testStrategy 0
      testPolicyCalls).2.1 (by decide),
   (policy_validity_duration_invariant 300 60 5 10 (some [(3, 40), (5, 120)]) testStrategy 0
      testPolicyCalls).2.2.2.2.1 (by decide),
   (policy_validity_duration_invariant 300 60 5 10 (some [(3, 40), (5, 120)]) testStrategy 120
      testPolicyCalls).2.2.2.2.2.1 (by decide),
   (policy_validity_duration_invariant 300 60 5 10 (some [(3, 40), (5, 120)]) testStrategy 0
      testPolicyCalls).2.2.2.2.2.2 testStrategy rfl⟩

/-! ## C14: when two keys are different strings -/

theorem String_append_inj_left (a b x y : String) (h : a ++ x = b ++ y)
    (hlen : a.length = b.length) : a = b ∧ x = y := by
  have hd := congrArg String.data h
  simp only [String.data_append] at hd
  have hl : a.data.length = b.data.length := hlen
  obtain ⟨h1, h2⟩ := List.append_inj hd hl
  exact ⟨String.ext h1, String.ext h2⟩

theorem String_append_inj_right (a b x y : String) (h : a ++ x = b ++ y)
    (hlen : x.length = y.length) : a = b ∧ x = y := by
  have hd := congrArg String.data h
  simp only [String.data_append] at hd
  have hl : x.data.length = y.data.length := hlen
  obtain ⟨h1, h2⟩ := List.append_inj' hd hl
  exact ⟨String.ext h1, String.ext h2⟩

/-- A list put in front of `v :: w ++ t2` gives a list that again starts with `v :: w`
only if it is empty or itself starts with `v :: w`, when `v` does not occur in `w`. -/
theorem head_absorb (v : Char) (w x t1 t2 : List Char) (hv : v ∉ w)
    (h : x ++ (v :: w ++ t2) = v :: w ++ t1) : x = [] ∨ (v :: w) <+: x := by
  rcases List.append_eq_append_iff.mp h with ⟨a, ha1, ha2⟩ | ⟨c, hc1, _⟩
  · cases x with
    | nil => exact Or.inl rfl
    | cons x0 xs =>
      right
      cases a with
      | nil =>
        rw [List.append_nil] at ha1
        rw [ha1]
      | cons a0 as =>
        exfalso
        simp only [List.cons_append, List.cons.injEq] at ha1 ha2
        apply hv
        rw [ha1.2, ← ha2.1]
        exact List.mem_append_right _ (List.mem_cons_self _ _)
  · exact Or.inr ⟨c, hc1.symm⟩

/-- The instance of `head_absorb` for the text `VerificationCode`. -/
theorem infix_absorb (x t1 t2 : List Char)
    (h : x ++ ("VerificationCode".data ++ t2) = "VerificationCode".data ++ t1) :
    x = [] ∨ "VerificationCode".data <+: x := by
  have hI : "VerificationCode".data = 'V' :: "erificationCode".data := by decide
  rw [hI] at h ⊢
  exact head_absorb 'V' _ x t1 t2 (by decide) h

/-- Two keys that are the same string have the same namespace and the same remainder, unless
one namespace starts with the other followed by `VerificationCode`. -/
theorem key_cut (m1 m2 x1 x2 : String)
    (h : m1 ++ "VerificationCode" ++ x1 = m2 ++ "VerificationCode" ++ x2)
    (h12 : ¬ (m1 ++ "VerificationCode").data <+: m2.data)
    (h21 : ¬ (m2 ++ "VerificationCode").data <+: m1.data) : m1 = m2 ∧ x1 = x2 := by
  have hd := congrArg String.data h
  simp only [String.data_append, List.append_assoc] at hd h12 h21
  rcases List.append_eq_append_iff.mp hd with ⟨a, ha1, ha2⟩ | ⟨c, hc1, hc2⟩
  · rcases infix_absorb a x1.data x2.data ha2.symm with hnil | ⟨y, hy⟩
    · subst hnil
      rw [List.append_nil] at ha1
      rw [List.nil_append] at ha2
      exact ⟨String.ext ha1.symm, String.ext (List.append_cancel_left ha2)⟩
    · exfalso
      apply h12
      exact ⟨y, by rw [ha1, ← hy, List.append_assoc]⟩
  · rcases infix_absorb c x2.data x1.data hc2.symm with hnil | ⟨y, hy⟩
    · subst hnil
      rw [List.append_nil] at hc1
      rw [List.nil_append] at hc2
      exact ⟨String.ext hc1, String.ext (List.append_cancel_left hc2).symm⟩
    · exfalso
      apply h21
      exact ⟨y, by rw [hc1, ← hy, List.append_assoc]⟩

theorem redisFieldName_eq (r : VerificationCodeRdb) (k : EntityKind) (clk : LocalClock)
    (now : Nat) (s : String) :
    r.redisFieldName k clk now s
      = r.ModuleName ++ "VerificationCode" ++ keyRest k (clk.dayStamp now) s := by
  have h1 : "VerificationCodeSet" = "VerificationCode" ++ "Set" := by decide
  have h2 : "VerificationCodeErrorCount" = "VerificationCode" ++ "ErrorCount" := by decide
  have h3 : "VerificationCodeLastErrorTime" = "VerificationCode" ++ "LastErrorTime" := by
    decide
  cases k
  · rfl
  · simp only [VerificationCodeRdb.redisFieldName, keyRest,
      VerificationCodeRdb.getRedisFieldNameVerificationCodeSet, h1, String.append_assoc]
  · simp only [VerificationCodeRdb.redisFieldName, keyRest,
      VerificationCodeRdb.getRedisFieldNameVerificationCodeErrorCount, h2, String.append_assoc]
  · simp only [VerificationCodeRdb.redisFieldName, keyRest,
      VerificationCodeRdb.getRedisFieldNameVerificationCodeLastFailedTime, h3,
      String.append_assoc]

/-- Equal remainders of two keys: the kinds and subjects are the same, unless an active-code
subject is the other kind's marker, subject and day stamp, or two stamps of one kind differ in
length. -/
theorem keyRest_inj (k1 k2 : EntityKind) (d1 d2 s1 s2 : String)
    (hstamp : k1 = k2 → k1.dayScoped = true → d1.length = d2.length)
    (hact12 : k1 = EntityKind.activeCode → k2.dayScoped = true → s1 ≠ k2.marker ++ s2 ++ d2)
    (hact21 : k2 = EntityKind.activeCode → k1.dayScoped = true → s2 ≠ k1.marker ++ s1 ++ d1)
    (h : keyRest k1 d1 s1 = keyRest k2 d2 s2) : k1 = k2 ∧ s1 = s2 := by
  have hdata := congrArg String.data h
  cases k1 <;> cases k2
  case activeCode.activeCode => exact ⟨rfl, h⟩
  case unconsumedSet.unconsumedSet =>
    exact ⟨rfl, (String_append_inj_left _ _ _ _
      (String_append_inj_right _ _ _ _ h (hstamp rfl rfl)).1 rfl).2⟩
  case failureCounter.failureCounter =>
    exact ⟨rfl, (String_append_inj_left _ _ _ _
      (String_append_inj_right _ _ _ _ h (hstamp rfl rfl)).1 rfl).2⟩
  case lastFailureTime.lastFailureTime =>
    exact ⟨rfl, (String_append_inj_left _ _ _ _
      (String_append_inj_right _ _ _ _ h (hstamp rfl rfl)).1 rfl).2⟩
  case activeCode.unconsumedSet => exact absurd h (hact12 rfl rfl)
  case activeCode.failureCounter => exact absurd h (hact12 rfl rfl)
  case activeCode.lastFailureTime => exact absurd h (hact12 rfl rfl)
  case unconsumedSet.activeCode => exact absurd h.symm (hact21 rfl rfl)
  case failureCounter.activeCode => exact absurd h.symm (hact21 rfl rfl)
  case lastFailureTime.activeCode => exact absurd h.symm (hact21 rfl rfl)
  all_goals
    exfalso
    simp [keyRest, String.data_append] at hdata

/-- C14 counterexample: two non-empty, different namespaces whose active-code keys for two
subjects are the same string; and, within one namespace, the active-code key of one subject
that is the same string as the unconsumed-set key of another subject on 2024-01-01. -/
theorem redisFieldName_collisions :
    (moduleA.ModuleName ≠ "" ∧ moduleAVerificationCode.ModuleName ≠ ""
      ∧ moduleA.ModuleName ≠ moduleAVerificationCode.ModuleName
      ∧ moduleA.redisFieldName EntityKind.activeCode utcClock testNow "VerificationCodeB"
          = moduleAVerificationCode.redisFieldName EntityKind.activeCode utcClock testNow "B")
    ∧ (testRdb.ModuleName ≠ "" ∧ EntityKind.activeCode ≠ EntityKind.unconsumedSet
      ∧ "SetTestPhoneNumber00120240101" ≠ testPhoneNum
      ∧ testRdb.redisFieldName EntityKind.activeCode utcClock testNow
            "SetTestPhoneNumber00120240101"
          = testRdb.redisFieldName EntityKind.unconsumedSet utcClock testNow testPhoneNum) := by
  decide

/-- C14 (amended): two tuples (namespace, entity kind, subject, day stamp) that differ in
namespace, entity kind or subject have different keys, unless one of three things happens:
one namespace starts with the other namespace followed by `VerificationCode`; or the
namespaces are equal, one entity is the active code, the other is day-scoped, and the
active code's subject is the other kind's marker (`Set`, `ErrorCount`, `LastErrorTime`)
followed by the other subject and its day stamp; or the namespaces and the day-scoped kinds
are equal and the two day stamps differ in length. -/
theorem redisFieldName_separate (r1 r2 : VerificationCodeRdb) (k1 k2 : EntityKind)
    (clk1 clk2 : LocalClock) (now1 now2 : Nat) (s1 s2 : String)
    (hns12 : ¬ (r1.ModuleName ++ "VerificationCode").data <+: r2.ModuleName.data)
    (hns21 : ¬ (r2.ModuleName ++ "VerificationCode").data <+: r1.ModuleName.data)
    (hstamp : r1.ModuleName = r2.ModuleName → k1 = k2 → k1.dayScoped = true →
      (clk1.dayStamp now1).length = (clk2.dayStamp now2).length)
    (hact12 : r1.ModuleName = r2.ModuleName → k1 = EntityKind.activeCode →
      k2.dayScoped = true → s1 ≠ k2.marker ++ s2 ++ clk2.dayStamp now2)
    (hact21 : r1.ModuleName = r2.ModuleName → k2 = EntityKind.activeCode →
      k1.dayScoped = true → s2 ≠ k1.marker ++ s1 ++ clk1.dayStamp now1)
    (hdiff : r1.ModuleName ≠ r2.ModuleName ∨ k1 ≠ k2 ∨ s1 ≠ s2) :
    r1.redisFieldName k1 clk1 now1 s1 ≠ r2.redisFieldName k2 clk2 now2 s2 := by
  intro hkey
  rw [redisFieldName_eq, redisFieldName_eq] at hkey
  obtain ⟨hm, hrest⟩ := key_cut _ _ _ _ hkey hns12 hns21
  obtain ⟨hk, hs⟩ := keyRest_inj k1 k2 _ _ s1 s2 (hstamp hm) (hact12 hm) (hact21 hm) hrest
  rcases hdiff with h | h | h
  · exact h hm
  · exact h hk
  · exact h hs

/-- C14 witness: the active-code key of `alice@example.org` in module `"SMS"` is neither the
failure-counter key of `bob` in module `"Email"` nor the failure-counter key of `bob` in
module `"SMS"`. -/
theorem redisFieldName_separate_witness :
    testRdb.redisFieldName EntityKind.activeCode utcClock testNow "alice@example.org"
        ≠ moduleEmail.redisFieldName EntityKind.failureCounter utcClock testNow "bob"
    ∧ testRdb.redisFieldName EntityKind.activeCode utcClock testNow "alice@example.org"
        ≠ testRdb.redisFieldName EntityKind.failureCounter utcClock testNow "bob" :=
  ⟨redisFieldName_separate testRdb moduleEmail EntityKind.activeCode EntityKind.failureCounter
      utcClock utcClock testNow testNow "alice@example.org" "bob" (by decide) (by decide)
      (fun h => absurd h (by decide)) (fun h => absurd h (by decide))
      (fun h => absurd h (by decide)) (Or.inl (by decide)),
   redisFieldName_separate testRdb testRdb EntityKind.activeCode EntityKind.failureCounter
      utcClock utcClock testNow testNow "alice@example.org" "bob" (by decide) (by decide)
      (fun _ h => absurd h (by decide)) (fun _ _ _ => by decide)
      (fun _ h => absurd h (by decide)) (Or.inr (Or.inl (by decide)))⟩

/-- The exceptions named in `redisFieldName_separate` are real: a namespace that continues
another one with `VerificationCode` shares active-code keys with it, and an active-code
subject made of a marker, a subject and its day stamp has the key of that day-scoped
entity. -/
theorem redisFieldName_exceptions_collide (r1 r2 r : VerificationCodeRdb) (k : EntityKind)
    (clk : LocalClock) (now1 now2 : Nat) (y s : String) :
    (r2.ModuleName = r1.ModuleName ++ "VerificationCode" ++ y →
        r1.redisFieldName EntityKind.activeCode clk now1 (y ++ "VerificationCode" ++ s)
          = r2.redisFieldName EntityKind.activeCode clk now2 s)
    ∧ (k.dayScoped = true →
        r.redisFieldName EntityKind.activeCode clk now1 (k.marker ++ s ++ clk.dayStamp now2)
          = r.redisFieldName k clk now2 s) := by
  constructor
  · intro hm
    simp only [redisFieldName_eq, keyRest, hm, String.append_assoc]
  · intro hk
    cases k
    · cases hk
    · simp only [redisFieldName_eq, keyRest, EntityKind.marker, String.append_assoc]
    · simp only [redisFieldName_eq, keyRest, EntityKind.marker, String.append_assoc]
    · simp only [redisFieldName_eq, keyRest, EntityKind.marker, String.append_assoc]

end verification_code_rdb
